import Mathlib

/-!
# Birdwatcher: backend `/bird` handler and frontend `/shuffle` handler

A shallow embedding of the request-handling logic of the two services.

* `backend/main.go`, `backend/birds.go`: dataset loading, the delay and
  error-rate fault injection, and the round-robin bird selection driven by the
  `int64` counter `birdCallCount`.
* `frontend/routes.go`: the `/shuffle` proxy handler, its query propagation and
  `roundDuration`.

Library calls whose code is outside the repository (`strconv.ParseFloat`,
`strconv.Quote`, `json.Unmarshal`, `Duration.String`) are parameters of the
model.  `strconv.Atoi` and `time.Duration.Round` are embedded from the Go
standard library, on a 64-bit platform.  Machine integers are `Int` with
explicit two's-complement wrap-around (`wrapInt64`).  Logging and tracing spans
have no effect on the response and are left out.
-/

namespace Birdwatcher

/-! ## Machine integers -/

/-- Largest `int64`. -/
def maxInt64 : Int := 9223372036854775807

/-- Smallest `int64`. -/
def minInt64 : Int := -9223372036854775808

/-- Two's-complement wrap of an integer into the `int64` range. -/
def wrapInt64 (x : Int) : Int := (x + 9223372036854775808) % 18446744073709551616 - 9223372036854775808

/-- Predicate: the integer is a value of type `int64`. -/
def isInt64 (x : Int) : Prop := minInt64 ≤ x ∧ x ≤ maxInt64

instance (x : Int) : Decidable (isInt64 x) := by unfold isInt64; infer_instance

/-! ## strconv.Atoi (Go standard library, 64-bit `int`) -/

/-- The two error causes of `strconv` number parsing. -/
inductive NumErrKind where
  | ErrSyntax
  | ErrRange
deriving DecidableEq, Repr

/-- Go `strconv.NumError`: the failing function, the input and the cause. -/
structure NumError where
  Func : String
  Num : String
  Err : NumErrKind
deriving DecidableEq, Repr

/-- Text of `ErrSyntax` and `ErrRange`. -/
def NumErrKind.text : NumErrKind → String
  | .ErrSyntax => "invalid syntax"
  | .ErrRange => "value out of range"

/-- Method `(*NumError).Error`, with `strconv.Quote` as a parameter. -/
def NumError.Error (Quote : String → String) (e : NumError) : String :=
  "strconv." ++ e.Func ++ ": parsing " ++ Quote e.Num ++ ": " ++ e.Err.text

/-- Decimal digit test and value, as in `ParseUint` for base 10. -/
def digitOf (c : Char) : Option Nat :=
  if 48 ≤ c.toNat ∧ c.toNat ≤ 57 then some (c.toNat - 48) else none

/-- The digit loop of `strconv.ParseUint(s, 10, 64)`: left to right, a
non-digit is a syntax error, an overflow of `uint64` a range error. -/
def parseUintLoop : List Char → Nat → Except NumErrKind Nat
  | [], n => .ok n
  | c :: cs, n =>
    match digitOf c with
    | none => .error .ErrSyntax
    | some d =>
      if n ≥ 18446744073709551615 / 10 + 1 then .error .ErrRange
      else if n * 10 + d > 18446744073709551615 then .error .ErrRange
      else parseUintLoop cs (n * 10 + d)

/-- Core of `strconv.ParseInt(s, 10, 64)`: optional sign, at least one digit,
result within `int64`. -/
def parseIntCore (cs : List Char) : Except NumErrKind Int :=
  match cs with
  | [] => .error .ErrSyntax
  | c :: rest =>
    let neg := decide (c = '-')
    let body := if c = '+' ∨ c = '-' then rest else cs
    match body with
    | [] => .error .ErrSyntax
    | _ =>
      match parseUintLoop body 0 with
      | .error e => .error e
      | .ok un =>
        if ¬ neg ∧ un ≥ 9223372036854775808 then .error .ErrRange
        else if neg ∧ un > 9223372036854775808 then .error .ErrRange
        else .ok (if neg then -(un : Int) else (un : Int))

/-- Go `strconv.Atoi`. -/
def Atoi (s : String) : Except NumError Int :=
  match parseIntCore s.toList with
  | .error e => .error ⟨"Atoi", s, e⟩
  | .ok n => .ok n

/-! ## Backend data model (`backend/birds.go`, `backend/main.go`) -/

/-- The anonymous struct of field `Thumbnail` of `birdRawData`. -/
structure Thumbnail where
  Source : String
deriving DecidableEq, Repr

/-- Go `birdRawData`: one record of `birds.json` / `canaries.json`. -/
structure birdRawData where
  Title : String
  Thumbnail : Thumbnail
  ExtractHTML : String
deriving DecidableEq, Repr

/-- Go `birdResponse`: the wire form of a bird. -/
structure birdResponse where
  Name : String
  ImageURL : String
  Extract : String
deriving DecidableEq, Repr

/-- The `metadata` object of every backend envelope. -/
structure Metadata where
  hostname : String
  version : String
deriving DecidableEq, Repr

/-- Payload of a backend response: `error` or `response`. -/
inductive Payload where
  | error (msg : String)
  | response (b : birdResponse)
deriving DecidableEq, Repr

/-- What one run of the `/bird` handler does to the connection: a `c.JSON`
call, or a run-time panic (index out of range, integer divide by zero). -/
inductive Outcome where
  | json (code : Nat) (metadata : Metadata) (payload : Payload)
  | panicked
deriving DecidableEq, Repr

/-- HTTP status seen by the caller; `gin.Default()` installs the recovery
middleware, which answers a panic with 500. -/
def Outcome.status : Outcome → Nat
  | .json code _ _ => code
  | .panicked => 500

/-- Library functions used by the backend handler. `F` stands for `float64`. -/
structure Lib (F : Type) where
  ParseFloat : String → Except String F
  Quote : String → String

/-- The values captured by the handler closure: `hostname`, `version`,
`birdList`. -/
structure Server where
  hostname : String
  version : String
  birdList : List birdRawData
deriving DecidableEq, Repr

/-- The decoded query of a request, as the ordered list of its key/value
pairs. -/
structure Request where
  query : List (String × String)
deriving DecidableEq, Repr

/-- Gin `c.Query(key)`: the first value of the key, or `""`. -/
def Request.Query (r : Request) (key : String) : String :=
  match r.query.find? (fun p => p.1 == key) with
  | some p => p.2
  | none => ""

/-- Result of one handler run: the outcome, the counter afterwards, and the
parsed delay that was slept for, if any. -/
structure Run (F : Type) where
  outcome : Outcome
  birdCallCount : Int
  slept : Option F

/-- The metadata map built in every envelope. -/
def Server.metadata (srv : Server) : Metadata := ⟨srv.hostname, srv.version⟩

/-- The block "Delay handling" of the handler: a 400 envelope, or the delay to
sleep for (`none` when the parameter is absent or `"0"`). -/
def delayHandling {F : Type} (lib : Lib F) (srv : Server) (req : Request) :
    Except Outcome (Option F) :=
  let delay := req.Query "delay"
  if delay ≠ "" ∧ delay ≠ "0" then
    match lib.ParseFloat delay with
    | .error err =>
      .error (.json 400 srv.metadata
        (.error ("error parsing query param \"delay\": " ++ err)))
    | .ok delaySec => .ok (some delaySec)
  else .ok none

/-- The block "Error handling" of the handler, `draw` being the value of
`rand.Intn(101)`: a 400 or 503 envelope, or fall through (`none`). -/
def errorHandling {F : Type} (lib : Lib F) (srv : Server) (req : Request)
    (draw : Fin 101) : Option Outcome :=
  let errorRate := req.Query "error-rate"
  if errorRate ≠ "" ∧ errorRate ≠ "0" then
    match Atoi errorRate with
    | .error err =>
      some (.json 400 srv.metadata
        (.error ("error parsing query param \"error-rate\": " ++ err.Error lib.Quote)))
    | .ok errorRateInt =>
      if errorRateInt ≥ (draw.val : Int) then
        some (.json 503 srv.metadata (.error "randomly generated error"))
      else none
  else none

/-- The block "Pick the next bird in the list": `atomic.AddInt64`, the
remainder `idx % int64(len(birdList))` (truncated, panics on a zero divisor),
the slice index (panics when negative) and the 200 envelope. -/
def pickBird (srv : Server) (birdCallCount : Int) : Outcome × Int :=
  let idx := wrapInt64 (birdCallCount + 1)
  if srv.birdList.length = 0 then (.panicked, idx)
  else
    let i := Int.tmod idx (srv.birdList.length : Int)
    if i < 0 then (.panicked, idx)
    else
      match srv.birdList[i.toNat]? with
      | none => (.panicked, idx)
      | some birdData =>
        (.json 200 srv.metadata
          (.response ⟨birdData.Title, birdData.Thumbnail.Source, birdData.ExtractHTML⟩), idx)

/-- The `GET /bird` handler. -/
def birdHandler {F : Type} (lib : Lib F) (srv : Server) (birdCallCount : Int)
    (req : Request) (draw : Fin 101) : Run F :=
  match delayHandling lib srv req with
  | .error out => ⟨out, birdCallCount, none⟩
  | .ok slept =>
    match errorHandling lib srv req draw with
    | some out => ⟨out, birdCallCount, slept⟩
    | none =>
      let r := pickBird srv birdCallCount
      ⟨r.1, r.2, slept⟩

/-- The delay parameter is absent, `"0"`, or parses. -/
def delayOK {F : Type} (lib : Lib F) (req : Request) : Prop :=
  req.Query "delay" = "" ∨ req.Query "delay" = "0" ∨
    ∃ f, lib.ParseFloat (req.Query "delay") = .ok f


/-! ## Backend startup (`main` up to the route registration, `birds`, `canaries`) -/

/-- What the process finds at startup: the outcome of `SetTrustedProxies`, the
environment variables, the embedded files, and the library calls. -/
structure Startup where
  trustedProxiesErr : Option String
  BIND_ADDR : String
  TRACING_URL : String
  VERSION : String
  initTracing : String → String → String → Option String
  Hostname : Except String String
  Unmarshal : String → Except String (List birdRawData)
  birdData : String
  canaryData : String

/-- Go `birds`: the list parsed from `birds.json`; `.error` is the message of
`log.Fatalf`, which ends the process. -/
def birds (s : Startup) : Except String (List birdRawData) :=
  match s.Unmarshal s.birdData with
  | .error err => .error ("unable to parse birds.json: " ++ err ++ "\n")
  | .ok birdList => .ok birdList

/-- Go `canaries`: the list parsed from `canaries.json`. -/
def canaries (s : Startup) : Except String (List birdRawData) :=
  match s.Unmarshal s.canaryData with
  | .error err => .error ("unable to parse canaries.json: " ++ err ++ "\n")
  | .ok canaryList => .ok canaryList

/-- Constant `defaultVersion`. -/
def defaultVersion : String := "v1"

/-- Constant `defaultBindAddr` of the backend. -/
def defaultBindAddr : String := "0.0.0.0:7000"

/-- The lines "Get our hostname": the result of `os.Hostname`, or the text of
its error. -/
def hostnameOrError (r : Except String String) : String :=
  match r with
  | .ok hostname => hostname
  | .error err => err

/-- Backend `main` up to the point where the server starts: `.error` is a fatal
exit with its message, `.ok` the values the `/bird` handler captures. -/
def backendMain (s : Startup) : Except String Server :=
  match s.trustedProxiesErr with
  | some err => .error err
  | none =>
    let bindAddr := if s.BIND_ADDR ≠ "" then s.BIND_ADDR else defaultBindAddr
    match (if s.TRACING_URL ≠ "" then s.initTracing s.TRACING_URL bindAddr "backend" else none) with
    | some err => .error ("Error initializing tracing: " ++ err ++ "\n")
    | none =>
      if s.VERSION ≠ "" ∧ s.VERSION ≠ "v1" ∧ s.VERSION ≠ "v2" then
        .error ("Unsupported VERSION=" ++ s.VERSION ++ "; only v1 and v2 are supported\n")
      else
        let version := if s.VERSION ≠ "" then s.VERSION else defaultVersion
        let hostname := hostnameOrError s.Hostname
        match (if version = defaultVersion then birds s else canaries s) with
        | .error msg => .error msg
        | .ok birdList => .ok ⟨hostname, version, birdList⟩

/-- Initial value of `birdCallCount`. -/
def initialBirdCallCount : Int := -1

/-- The counter after serving a list of requests one after the other, each
with its own random draw. -/
def serveAll {F : Type} (lib : Lib F) (srv : Server) :
    Int → List (Request × Fin 101) → Int
  | c, [] => c
  | c, r :: rs => serveAll lib srv (birdHandler lib srv c r.1 r.2).birdCallCount rs

/-- The request passes both fault-injection blocks and runs the selection. -/
def reachesSelection {F : Type} (lib : Lib F) (srv : Server) (r : Request × Fin 101) : Bool :=
  match delayHandling lib srv r.1 with
  | .error _ => false
  | .ok _ => (errorHandling lib srv r.1 r.2).isNone

/-! ## Frontend (`frontend/routes.go`) -/

/-- Go `BackendResp`. -/
structure BackendResp where
  Name : String
  ImageURL : String
  Extract : String
deriving DecidableEq, Repr

/-- Go `BackendRespWrapper`, the metadata struct flattened. -/
structure BackendRespWrapper where
  Hostname : String
  Version : String
  Response : BackendResp
  Error : String
deriving DecidableEq, Repr

/-- Go `ShuffleRespMetadata`. -/
structure ShuffleRespMetadata where
  BackendDuration : String
  BackendStatusCode : Int
  BackendHostname : String
  BackendVersion : String
deriving DecidableEq, Repr

/-- Go `ShuffleResp`; the 503 body `gin.H` with an empty metadata map has the
same shape. -/
structure ShuffleResp where
  Metadata : ShuffleRespMetadata
  Error : String
  Response : Option BackendResp
deriving DecidableEq, Repr

/-- What one run of the `/shuffle` handler does: a `c.JSON` call or a panic. -/
inductive ShuffleOutcome where
  | json (code : Nat) (body : ShuffleResp)
  | panicked
deriving DecidableEq, Repr

/-- HTTP status seen by the caller (a panic is answered 500 by the recovery
middleware of `gin.Default()`). -/
def ShuffleOutcome.status : ShuffleOutcome → Nat
  | .json code _ => code
  | .panicked => 500

/-- Go `url.Values`: a map from key to its values, as an association list
with one entry per key. -/
abbrev Values := List (String × List String)

/-- The values of a key (`nil` when the key is absent). -/
def Values.Get : Values → String → List String
  | [], _ => []
  | (k', vs) :: t, k => if k' = k then vs else Values.Get t k

/-- The statement `m[key] = append(m[key], value)` of `url.ParseQuery`. -/
def Values.Add : Values → String → String → Values
  | [], k, v => [(k, [v])]
  | (k', vs) :: t, k, v => if k' = k then (k', vs ++ [v]) :: t else (k', vs) :: Values.Add t k v

/-- Go `url.Values.Set`: the key now has the one value. -/
def Values.Set : Values → String → String → Values
  | [], k, v => [(k, [v])]
  | (k', vs) :: t, k, v => if k' = k then (k', [v]) :: t else (k', vs) :: Values.Set t k v

/-- Go `URL.Query()` on the decoded pairs of the query string, in order. -/
def ParseQuery (pairs : List (String × String)) : Values :=
  pairs.foldl (fun m p => Values.Add m p.1 p.2) []

/-- The loop "Propagate query params from request":
for every `k, v` of the caller's query, `queryParams.Set(k, v[0])`; `none` is the
panic of `v[0]` on an empty slice. The entries are visited in list order (the
keys are distinct, so the order does not change the resulting map). -/
def propagateQuery (queryParams : Values) : Values → Option Values
  | [] => some queryParams
  | (k, v) :: rest =>
    match v with
    | [] => none
    | v0 :: _ => propagateQuery (Values.Set queryParams k v0) rest

/-- Go `time.Millisecond` in nanoseconds. -/
def Millisecond : Int := 1000000

/-- Go `time.Microsecond` in nanoseconds. -/
def Microsecond : Int := 1000

/-- Go `time.lessThanHalf`: `uint64(x)+uint64(x) < uint64(y)`. -/
def lessThanHalf (x y : Int) : Bool :=
  decide ((x % 18446744073709551616 + x % 18446744073709551616) % 18446744073709551616
    < y % 18446744073709551616)

/-- Go `time.Duration.Round` on `int64` nanoseconds: halves away from zero,
saturating at the largest or smallest duration. -/
def Round (d m : Int) : Int :=
  if m ≤ 0 then d
  else
    let r := Int.tmod d m
    if d < 0 then
      let r := wrapInt64 (-r)
      if lessThanHalf r m then wrapInt64 (d + r)
      else
        let d1 := wrapInt64 (wrapInt64 (d - m) + r)
        if d1 < d then d1 else minInt64
    else
      if lessThanHalf r m then wrapInt64 (d - r)
      else
        let d1 := wrapInt64 (wrapInt64 (d + m) - r)
        if d1 > d then d1 else maxInt64

/-- Go `roundDuration`. -/
def roundDuration (d : Int) : Int :=
  if d > 1 * Millisecond then Round d (1 * Millisecond)
  else Round d (1 * Microsecond)

/-- The multiple of `unit` nearest to `d`, halves away from zero, over the
integers (no bound): the rounding the specification speaks of. -/
def nearestMultiple (d unit : Int) : Int :=
  if 0 ≤ d then (2 * d + unit) / (2 * unit) * unit
  else -((2 * (-d) + unit) / (2 * unit) * unit)

/-- The specification of `roundDuration`: millisecond precision from 1 ms
on, microsecond precision below. -/
def roundDurationSpec (d : Int) : Int :=
  if d ≥ Millisecond then nearestMultiple d Millisecond
  else nearestMultiple d Microsecond

/-- Library functions used by the frontend handler. -/
structure FrontLib where
  DurationString : Int → String
  Quote : String → String
  Unmarshal : String → Except String BackendRespWrapper

/-- The backend's answer as the handler reads it: status code, the
`Content-Type` header and the outcome of `io.ReadAll` on the body. -/
structure HTTPResponse where
  StatusCode : Int
  ContentType : String
  Body : Except String String

/-- Go `strings.Contains`. -/
def Contains (s substr : String) : Bool := decide (substr.toList <:+: s.toList)

/-- The closure `backendErrResponse`. -/
def backendErrResponse (lib : FrontLib) (duration : Int) (err : String) : ShuffleOutcome :=
  .json 200 ⟨⟨lib.DurationString (roundDuration duration), 0, "", ""⟩, err, none⟩

/-- The `GET /shuffle` handler from "Record the duration" on: what it writes
for the result of `httpClient.Do` and the measured duration. -/
def shuffleRespond (lib : FrontLib) (result : Except String HTTPResponse)
    (duration : Int) : ShuffleOutcome :=
  match result with
  | .error err => backendErrResponse lib duration ("unable to call backend: " ++ err)
  | .ok resp =>
    match resp.Body with
    | .error err =>
      backendErrResponse lib duration ("unable to read backend response body: " ++ err)
    | .ok body =>
      if ¬ Contains resp.ContentType "application/json" then
        backendErrResponse lib duration
          ("received status code " ++ toString resp.StatusCode ++ " from backend: "
            ++ lib.Quote body)
      else
        match lib.Unmarshal body with
        | .error err =>
          backendErrResponse lib duration ("json unmarshalling response body: " ++ err)
        | .ok backendResp =>
          if resp.StatusCode ≠ 200 then
            .json 200 ⟨⟨lib.DurationString (roundDuration duration), resp.StatusCode,
                backendResp.Hostname, backendResp.Version⟩,
              "received status code " ++ toString resp.StatusCode ++ " from backend: "
                ++ lib.Quote backendResp.Error, none⟩
          else
            .json 200 ⟨⟨lib.DurationString (roundDuration duration), resp.StatusCode,
                backendResp.Hostname, backendResp.Version⟩, "", some backendResp.Response⟩

/-- One run of the `/shuffle` handler: what it writes, and the query of the
request it handed to `httpClient.Do` (`none` when `Do` was not called). -/
structure ShuffleRun where
  outcome : ShuffleOutcome
  outbound : Option Values

/-- The `GET /shuffle` handler. `newRequest` is the outcome of
`http.NewRequestWithContext` (the query of the new URL on success),
`callerQuery` the decoded pairs of the caller's query string, `Do` the call
`httpClient.Do` as a function of the outbound query, `elapsed` the value of
`time.Since(startTime)`. -/
def shuffleHandler (lib : FrontLib) (newRequest : Except String Values)
    (callerQuery : List (String × String))
    (Do : Values → Except String HTTPResponse) (elapsed : Int) : ShuffleRun :=
  match newRequest with
  | .error err =>
    ⟨.json 503 ⟨⟨"", 0, "", ""⟩, "Unable to construct request: " ++ err, none⟩, none⟩
  | .ok reqQuery =>
    match propagateQuery reqQuery (ParseQuery callerQuery) with
    | none => ⟨.panicked, none⟩
    | some queryParams =>
      let resp := Do queryParams
      let duration := elapsed
      ⟨shuffleRespond lib resp duration, some queryParams⟩

/-- A library instance for concrete evaluations: `ParseFloat` accepts only
`"1.5"`, `Quote` adds the quotes. -/
def sampleLib : Lib Nat :=
  ⟨fun s => if s = "1.5" then .ok 1 else .error "strconv.ParseFloat: parsing: invalid syntax",
   fun s => "\"" ++ s ++ "\""⟩

/-- A server with three records, for concrete evaluations. -/
def threeBirds : Server :=
  ⟨"host", "v1",
   [⟨"Robin", ⟨"robin.jpg"⟩, "<p>Robin</p>"⟩,
    ⟨"Wren", ⟨"wren.jpg"⟩, "<p>Wren</p>"⟩,
    ⟨"Swift", ⟨"swift.jpg"⟩, "<p>Swift</p>"⟩]⟩

/-- A request without query parameters. -/
def plainRequest : Request := ⟨[]⟩

/-- A startup in which `birds.json` holds the empty JSON array: `VERSION` is
unset, tracing is off, and `Unmarshal` does on `"[]"` what `json.Unmarshal`
does (an empty list, no error). -/
def emptyDatasetStartup : Startup :=
  ⟨none, "", "", "", fun _ _ _ => none, .ok "host",
   fun s => if s = "[]" then .ok [] else .error "unexpected end of JSON input",
   "[]", "[]"⟩

/-- A frontend library instance for concrete evaluations: durations print as
their nanosecond count, `Quote` adds the quotes, no body decodes. -/
def sampleFrontLib : FrontLib :=
  ⟨fun d => toString d ++ "ns", fun s => "\"" ++ s ++ "\"",
   fun _ => .error "unexpected end of JSON input"⟩

/-- A startup in which `birds.json` decodes to the three sample records and
`VERSION` is unset. -/
def threeBirdsStartup : Startup :=
  ⟨none, "", "", "", fun _ _ _ => none, .ok "host",
   fun s => if s = "three" then .ok threeBirds.birdList else .error "invalid character",
   "three", "[]"⟩

/-! ## Arithmetic helpers -/

theorem wrapInt64_of_isInt64 (x : Int) (h : isInt64 x) : wrapInt64 x = x := by
  unfold isInt64 minInt64 maxInt64 at h
  unfold wrapInt64
  omega

theorem isInt64_wrapInt64 (x : Int) : isInt64 (wrapInt64 x) := by
  unfold isInt64 minInt64 maxInt64 wrapInt64
  omega

theorem wrapInt64_add_wrap (x y : Int) : wrapInt64 (wrapInt64 x + y) = wrapInt64 (x + y) := by
  unfold wrapInt64
  omega

theorem wrapInt64_wrap_sub (x y : Int) : wrapInt64 (wrapInt64 x - y) = wrapInt64 (x - y) := by
  unfold wrapInt64
  omega

theorem wrapInt64_overflow (x : Int) (h1 : maxInt64 < x) (h2 : x ≤ 2 * maxInt64) :
    wrapInt64 x = x - 18446744073709551616 := by
  unfold maxInt64 at h1 h2
  unfold wrapInt64
  omega

theorem wrapInt64_underflow (x : Int) (h1 : x < minInt64) (h2 : 2 * minInt64 ≤ x) :
    wrapInt64 x = x + 18446744073709551616 := by
  unfold minInt64 at h1 h2
  unfold wrapInt64
  omega

theorem lessThanHalf_eq (x y : Int) (hx : 0 ≤ x) (hx' : x ≤ maxInt64) (hy : 0 ≤ y)
    (hy' : y ≤ maxInt64) : lessThanHalf x y = decide (x + x < y) := by
  unfold maxInt64 at hx' hy'
  unfold lessThanHalf
  congr 1
  apply propext
  omega

theorem tmod_of_nonneg (d m : Int) (hd : 0 ≤ d) (hm : 0 < m) : Int.tmod d m = d % m :=
  Int.tmod_eq_emod hd (le_of_lt hm)

theorem tmod_of_neg (d m : Int) (hd : d < 0) (hm : 0 < m) : Int.tmod d m = -((-d) % m) := by
  have h1 : Int.tdiv d m = -(Int.tdiv (-d) m) := by
    have := Int.neg_tdiv (-d) m
    rw [neg_neg] at this
    exact this
  rw [Int.tmod_def, h1, Int.tdiv_eq_ediv (by omega) (le_of_lt hm), Int.emod_def]
  ring

theorem emod_le_of_nonneg (d m : Int) (hd : 0 ≤ d) (hm : 0 < m) : d % m ≤ d := by
  have h1 := Int.emod_add_ediv d m
  have h2 : 0 ≤ m * (d / m) := mul_nonneg (le_of_lt hm) (Int.ediv_nonneg hd (le_of_lt hm))
  omega

/-- Round on a non-negative duration, without machine arithmetic. -/
theorem Round_of_nonneg (d m : Int) (hd : 0 ≤ d) (hd' : d ≤ maxInt64) (hm : 0 < m)
    (hm' : m ≤ maxInt64) :
    Round d m =
      if 2 * (d % m) < m then d - d % m
      else if d + m - d % m ≤ maxInt64 then d + m - d % m else maxInt64 := by
  have hr0 : 0 ≤ d % m := Int.emod_nonneg _ (by omega)
  have hr1 : d % m < m := Int.emod_lt_of_pos _ hm
  have hr2 : d % m ≤ d := emod_le_of_nonneg d m hd hm
  unfold Round
  rw [if_neg (by omega), tmod_of_nonneg d m hd hm]
  simp only
  rw [if_neg (by omega), lessThanHalf_eq _ _ hr0 (by omega) (by omega) hm', wrapInt64_wrap_sub]
  generalize d % m = r at *
  simp only [decide_eq_true_eq]
  by_cases h : r + r < m
  · have h' : 2 * r < m := by omega
    rw [if_pos h', if_pos h]
    apply wrapInt64_of_isInt64
    unfold isInt64 minInt64; unfold maxInt64 at *; omega
  · have h' : ¬ 2 * r < m := by omega
    rw [if_neg h', if_neg h]
    by_cases h2 : d + m - r ≤ maxInt64
    · have hw : wrapInt64 (d + m - r) = d + m - r :=
        wrapInt64_of_isInt64 _ (by unfold isInt64 minInt64; unfold maxInt64 at *; omega)
      rw [if_pos h2, hw, if_pos (by omega)]
    · have hw : wrapInt64 (d + m - r) = d + m - r - 18446744073709551616 :=
        wrapInt64_overflow _ (by omega) (by unfold maxInt64 at *; omega)
      rw [if_neg h2, hw, if_neg (by unfold maxInt64 at *; omega)]

/-- Round on a negative duration, without machine arithmetic. -/
theorem Round_of_neg (d m : Int) (hd : d < 0) (hd' : minInt64 ≤ d) (hm : 0 < m)
    (hm' : m ≤ maxInt64) :
    Round d m =
      if 2 * ((-d) % m) < m then d + (-d) % m
      else if minInt64 ≤ d - m + (-d) % m then d - m + (-d) % m else minInt64 := by
  have hr0 : 0 ≤ (-d) % m := Int.emod_nonneg _ (by omega)
  have hr1 : (-d) % m < m := Int.emod_lt_of_pos _ hm
  have hr2 : (-d) % m ≤ -d := emod_le_of_nonneg (-d) m (by omega) hm
  unfold Round
  rw [if_neg (by omega), tmod_of_neg d m hd hm]
  simp only
  rw [if_pos hd, neg_neg,
    wrapInt64_of_isInt64 ((-d) % m) (by unfold isInt64 minInt64; unfold maxInt64 at *; omega),
    lessThanHalf_eq _ _ hr0 (by omega) (by omega) hm', wrapInt64_add_wrap]
  generalize (-d) % m = r at *
  simp only [decide_eq_true_eq]
  by_cases h : r + r < m
  · have h' : 2 * r < m := by omega
    rw [if_pos h', if_pos h]
    apply wrapInt64_of_isInt64
    unfold isInt64 maxInt64; unfold minInt64 at *; omega
  · have h' : ¬ 2 * r < m := by omega
    rw [if_neg h', if_neg h]
    by_cases h2 : minInt64 ≤ d - m + r
    · have hw : wrapInt64 (d - m + r) = d - m + r :=
        wrapInt64_of_isInt64 _ (by unfold isInt64 maxInt64; unfold minInt64 at *; omega)
      rw [if_pos h2, hw, if_pos (by omega)]
    · have hw : wrapInt64 (d - m + r) = d - m + r + 18446744073709551616 :=
        wrapInt64_underflow _ (by omega) (by unfold maxInt64 at *; unfold minInt64 at *; omega)
      rw [if_neg h2, hw, if_neg (by unfold maxInt64 at *; unfold minInt64 at *; omega)]

/-! ## Backend: the three blocks of the handler -/

theorem delayHandling_of_delayOK {F : Type} (lib : Lib F) (srv : Server) (req : Request)
    (h : delayOK lib req) : ∃ s, delayHandling lib srv req = .ok s := by
  unfold delayHandling
  rcases h with h | h | ⟨f, hf⟩
  · exact ⟨none, by simp [h]⟩
  · exact ⟨none, by simp [h]⟩
  · by_cases hc : req.Query "delay" ≠ "" ∧ req.Query "delay" ≠ "0"
    · exact ⟨some f, by rw [if_pos hc, hf]⟩
    · exact ⟨none, by rw [if_neg hc]⟩

theorem pickBird_snd (srv : Server) (c : Int) : (pickBird srv c).2 = wrapInt64 (c + 1) := by
  unfold pickBird
  simp only
  split
  · rfl
  · split
    · rfl
    · split <;> rfl

theorem pickBird_status (srv : Server) (c : Int) :
    (pickBird srv c).1.status = 200 ∨ (pickBird srv c).1.status = 500 := by
  unfold pickBird
  simp only
  split
  · right; rfl
  · split
    · right; rfl
    · split
      · right; rfl
      · left; rfl

/-- Selection from a counter below the `int64` maximum over a non-empty
dataset answers 200 with the record at `(counter + 1) mod length`. -/
theorem pickBird_of_inRange (srv : Server) (c : Int) (hne : srv.birdList ≠ [])
    (hlo : -1 ≤ c) (hhi : c < maxInt64) :
    ∃ b, srv.birdList[(c + 1).toNat % srv.birdList.length]? = some b ∧
      pickBird srv c =
        (.json 200 srv.metadata (.response ⟨b.Title, b.Thumbnail.Source, b.ExtractHTML⟩), c + 1) := by
  have hlen : 0 < srv.birdList.length := List.length_pos.mpr hne
  have hw : wrapInt64 (c + 1) = c + 1 := by
    apply wrapInt64_of_isInt64
    unfold isInt64 minInt64; unfold maxInt64 at *; omega
  have hn0 : (0 : Int) ≤ c + 1 := by omega
  have hmod : Int.tmod (c + 1) (srv.birdList.length : Int) = (c + 1) % (srv.birdList.length : Int) :=
    Int.tmod_eq_emod hn0 (by omega)
  have hnn : 0 ≤ (c + 1) % (srv.birdList.length : Int) := Int.emod_nonneg _ (by omega)
  have hidx : ((c + 1) % (srv.birdList.length : Int)).toNat = (c + 1).toNat % srv.birdList.length := by
    have h1 : ((c + 1).toNat : Int) = c + 1 := Int.toNat_of_nonneg hn0
    have h2 : (((c + 1).toNat % srv.birdList.length : Nat) : Int) = (c + 1) % (srv.birdList.length : Int) := by
      rw [Int.natCast_mod, h1]
    omega
  have hlt : (c + 1).toNat % srv.birdList.length < srv.birdList.length := Nat.mod_lt _ hlen
  refine ⟨srv.birdList[(c + 1).toNat % srv.birdList.length], List.getElem?_eq_getElem hlt, ?_⟩
  unfold pickBird
  simp only [hw, hmod, hidx]
  rw [if_neg (by omega), if_neg (by omega), List.getElem?_eq_getElem hlt]

theorem errorHandling_status {F : Type} (lib : Lib F) (srv : Server) (req : Request)
    (draw : Fin 101) (out : Outcome) (h : errorHandling lib srv req draw = some out) :
    out.status = 400 ∨ out.status = 503 := by
  unfold errorHandling at h
  simp only at h
  split at h
  · split at h
    · cases h; left; rfl
    · split at h
      · cases h; right; rfl
      · cases h
  · cases h

theorem delayHandling_status {F : Type} (lib : Lib F) (srv : Server) (req : Request)
    (out : Outcome) (h : delayHandling lib srv req = .error out) : out.status = 400 := by
  unfold delayHandling at h
  simp only at h
  split at h
  · split at h
    · cases h; rfl
    · cases h
  · cases h

/-- The handler either leaves the counter alone, answering 400 or 503, or runs
the selection. -/
theorem birdHandler_cases {F : Type} (lib : Lib F) (srv : Server) (c : Int) (req : Request)
    (draw : Fin 101) :
    (reachesSelection lib srv (req, draw) = false ∧
      (birdHandler lib srv c req draw).birdCallCount = c ∧
      ((birdHandler lib srv c req draw).outcome.status = 400 ∨
        (birdHandler lib srv c req draw).outcome.status = 503)) ∨
    (reachesSelection lib srv (req, draw) = true ∧
      (birdHandler lib srv c req draw).outcome = (pickBird srv c).1 ∧
      (birdHandler lib srv c req draw).birdCallCount = (pickBird srv c).2) := by
  unfold birdHandler reachesSelection
  cases hd : delayHandling lib srv req with
  | error out =>
    left
    exact ⟨rfl, rfl, Or.inl (delayHandling_status lib srv req out hd)⟩
  | ok slept =>
    cases he : errorHandling lib srv req draw with
    | some out =>
      left
      exact ⟨rfl, rfl, errorHandling_status lib srv req draw out he⟩
    | none =>
      right
      exact ⟨rfl, rfl, rfl⟩

/-! ## Backend: fault injection -/

/-- C3: with `error-rate=100` and a delay that is absent, `"0"` or parses, the
handler answers 503 with the error "randomly generated error" for every value
of the random draw in [0,100], and the selection counter is left alone (no
bird is selected). -/
theorem errorRate_100_always_503 {F : Type} (lib : Lib F) (srv : Server) (c : Int)
    (req : Request) (draw : Fin 101)
    (hrate : req.Query "error-rate" = "100") (hdelay : delayOK lib req) :
    (birdHandler lib srv c req draw).outcome =
        .json 503 srv.metadata (.error "randomly generated error") ∧
      (birdHandler lib srv c req draw).outcome.status = 503 ∧
      (birdHandler lib srv c req draw).birdCallCount = c ∧
      reachesSelection lib srv (req, draw) = false := by
  obtain ⟨s, hs⟩ := delayHandling_of_delayOK lib srv req hdelay
  have hA : Atoi "100" = .ok 100 := by rfl
  have hd : ((draw.val : Nat) : Int) ≤ 100 := by have := draw.isLt; omega
  have he : errorHandling lib srv req draw =
      some (.json 503 srv.metadata (.error "randomly generated error")) := by
    unfold errorHandling
    simp only [hrate, hA]
    rw [if_pos (by decide), if_pos (by omega)]
  unfold birdHandler reachesSelection
  simp only [hs, he]
  exact ⟨trivial, rfl, trivial, rfl⟩

/-- Witness for C3: the request `?error-rate=100` at draw 100. -/
theorem errorRate_100_always_503_witness :
    (birdHandler sampleLib threeBirds (-1) ⟨[("error-rate", "100")]⟩ 100).outcome =
        .json 503 threeBirds.metadata (.error "randomly generated error") ∧
      (birdHandler sampleLib threeBirds (-1) ⟨[("error-rate", "100")]⟩ 100).outcome.status = 503 ∧
      (birdHandler sampleLib threeBirds (-1) ⟨[("error-rate", "100")]⟩ 100).birdCallCount = -1 ∧
      reachesSelection sampleLib threeBirds (⟨[("error-rate", "100")]⟩, 100) = false :=
  errorRate_100_always_503 sampleLib threeBirds (-1) ⟨[("error-rate", "100")]⟩ 100
    (by decide) (Or.inl (by decide))

/-- Counterexample to C4: the request `?error-rate=0` (no delay) is inside
the claim's conditions, yet it is answered 500, not 200, on the server that
starts from an empty `birds.json`, and on the three-record server once the
counter stands at the `int64` maximum. -/
theorem errorRate_zero_answered_500 :
    (⟨[("error-rate", "0")]⟩ : Request).Query "error-rate" = "0" ∧
    delayOK sampleLib ⟨[("error-rate", "0")]⟩ ∧
    backendMain emptyDatasetStartup = .ok ⟨"host", "v1", []⟩ ∧
    (birdHandler sampleLib ⟨"host", "v1", []⟩ initialBirdCallCount
      ⟨[("error-rate", "0")]⟩ 0).outcome.status = 500 ∧
    (birdHandler sampleLib threeBirds maxInt64 ⟨[("error-rate", "0")]⟩ 0).outcome.status = 500 := by
  exact ⟨by decide, Or.inl (by decide), by rfl, by decide, by decide⟩

/-- C4 (amended): with `error-rate` equal to `"0"` or absent and a delay that
is absent, `"0"` or parses, the handler never answers the synthetic 503,
whatever the draw, and always runs the selection step; over a non-empty
dataset and from a counter in [-1, 2^63 - 2] it answers 200. -/
theorem errorRate_zero_or_absent_never_503 {F : Type} (lib : Lib F) (srv : Server) (c : Int)
    (req : Request) (draw : Fin 101)
    (hrate : req.Query "error-rate" = "" ∨ req.Query "error-rate" = "0")
    (hdelay : delayOK lib req) :
    (birdHandler lib srv c req draw).outcome.status ≠ 503 ∧
      reachesSelection lib srv (req, draw) = true ∧
      (birdHandler lib srv c req draw).outcome = (pickBird srv c).1 ∧
      (srv.birdList ≠ [] → -1 ≤ c → c < maxInt64 →
        (birdHandler lib srv c req draw).outcome.status = 200) := by
  obtain ⟨s, hs⟩ := delayHandling_of_delayOK lib srv req hdelay
  have he : errorHandling lib srv req draw = none := by
    unfold errorHandling
    rcases hrate with h | h <;> simp [h]
  have hout : (birdHandler lib srv c req draw).outcome = (pickBird srv c).1 := by
    unfold birdHandler
    simp only [hs, he]
  refine ⟨?_, ?_, hout, ?_⟩
  · rw [hout]
    rcases pickBird_status srv c with h | h <;> rw [h] <;> decide
  · unfold reachesSelection
    simp only [hs, he]
    rfl
  · intro hne hlo hhi
    obtain ⟨b, _, hb⟩ := pickBird_of_inRange srv c hne hlo hhi
    rw [hout, hb]
    rfl

/-- Witness for C4: `?error-rate=0` on the fresh three-record server. -/
theorem errorRate_zero_or_absent_never_503_witness :
    (birdHandler sampleLib threeBirds (-1) ⟨[("error-rate", "0")]⟩ 0).outcome.status = 200 :=
  (errorRate_zero_or_absent_never_503 sampleLib threeBirds (-1) ⟨[("error-rate", "0")]⟩ 0
    (Or.inr (by decide)) (Or.inl (by decide))).2.2.2 (by decide) (by decide) (by decide)

/-- Counterexample to C5: a request answered 500 moves the counter (empty
dataset: from -1 to 0; three records with the counter at the `int64` maximum:
to the `int64` minimum), and a request answered 200 can move it by something
other than 1 (one record, counter at the `int64` maximum). -/
theorem answered_500_moves_counter :
    (birdHandler sampleLib ⟨"host", "v1", []⟩ (-1) plainRequest 0).outcome.status = 500 ∧
    (birdHandler sampleLib ⟨"host", "v1", []⟩ (-1) plainRequest 0).birdCallCount = 0 ∧
    (birdHandler sampleLib threeBirds maxInt64 plainRequest 0).outcome.status = 500 ∧
    (birdHandler sampleLib threeBirds maxInt64 plainRequest 0).birdCallCount = minInt64 ∧
    (birdHandler sampleLib ⟨"host", "v1", [⟨"Robin", ⟨"robin.jpg"⟩, "<p>Robin</p>"⟩]⟩
      maxInt64 plainRequest 0).outcome.status = 200 ∧
    (birdHandler sampleLib ⟨"host", "v1", [⟨"Robin", ⟨"robin.jpg"⟩, "<p>Robin</p>"⟩]⟩
      maxInt64 plainRequest 0).birdCallCount ≠ maxInt64 + 1 := by
  exact ⟨by decide, by decide, by decide, by decide, by decide, by decide⟩

/-- C5 (amended): a request answered 400 or 503 leaves the selection counter
as it was, and the counter changes only in requests that pass both
fault-injection blocks and run the selection step. Over a non-empty dataset
and from a counter in [-1, 2^63 - 2], the counter is advanced only by requests
answered 200, every request answered 200 advances it by exactly 1, and no
request changes it in any other way. -/
theorem counter_frame {F : Type} (lib : Lib F) (srv : Server) (c : Int)
    (req : Request) (draw : Fin 101) :
    (((birdHandler lib srv c req draw).outcome.status = 400 ∨
        (birdHandler lib srv c req draw).outcome.status = 503) →
      (birdHandler lib srv c req draw).birdCallCount = c) ∧
    ((birdHandler lib srv c req draw).birdCallCount ≠ c →
      reachesSelection lib srv (req, draw) = true) ∧
    (srv.birdList ≠ [] → -1 ≤ c → c < maxInt64 →
      ((birdHandler lib srv c req draw).birdCallCount ≠ c →
        (birdHandler lib srv c req draw).outcome.status = 200) ∧
      ((birdHandler lib srv c req draw).outcome.status = 200 →
        (birdHandler lib srv c req draw).birdCallCount = c + 1) ∧
      ((birdHandler lib srv c req draw).birdCallCount = c ∨
        (birdHandler lib srv c req draw).birdCallCount = c + 1)) := by
  rcases birdHandler_cases lib srv c req draw with ⟨_, hc, hst⟩ | ⟨hreach, hout, hc⟩
  · refine ⟨fun _ => hc, fun h => absurd hc h,
      fun _ _ _ => ⟨fun h => absurd hc h, fun h => ?_, Or.inl hc⟩⟩
    rcases hst with h' | h' <;> rw [h'] at h <;> exact absurd h (by decide)
  · refine ⟨fun h => ?_, fun _ => hreach, fun hne hlo hhi => ?_⟩
    · rw [hout] at h
      rcases pickBird_status srv c with h' | h' <;> rw [h'] at h <;>
        rcases h with h | h <;> exact absurd h (by decide)
    · obtain ⟨b, _, hb⟩ := pickBird_of_inRange srv c hne hlo hhi
      rw [hb] at hout hc
      exact ⟨fun _ => by rw [hout]; rfl, fun _ => hc, Or.inr hc⟩

/-- Witness for C5: a plain request on the fresh three-record server moves the
counter from -1 to 0. -/
theorem counter_frame_witness :
    (birdHandler sampleLib threeBirds (-1) plainRequest 0).birdCallCount = -1 + 1 :=
  ((counter_frame sampleLib threeBirds (-1) plainRequest 0).2.2
    (by decide) (by decide) (by decide)).2.1 (by decide)

/-- C6: a `delay` value that is not empty, not `"0"` and does not parse as a
float is answered 400, the error being `error parsing query param "delay": `
followed by the parser's message, the metadata carrying hostname and version,
whatever the `error-rate` parameter and the draw; the counter is left alone. -/
theorem malformed_delay_400 {F : Type} (lib : Lib F) (srv : Server) (c : Int)
    (req : Request) (draw : Fin 101) (msg : String)
    (hne : req.Query "delay" ≠ "") (h0 : req.Query "delay" ≠ "0")
    (hparse : lib.ParseFloat (req.Query "delay") = .error msg) :
    (birdHandler lib srv c req draw).outcome =
        .json 400 ⟨srv.hostname, srv.version⟩
          (.error ("error parsing query param \"delay\": " ++ msg)) ∧
      (birdHandler lib srv c req draw).outcome.status = 400 ∧
      (birdHandler lib srv c req draw).birdCallCount = c := by
  have hd : delayHandling lib srv req =
      .error (.json 400 srv.metadata (.error ("error parsing query param \"delay\": " ++ msg))) := by
    unfold delayHandling
    simp only
    rw [if_pos ⟨hne, h0⟩, hparse]
  unfold birdHandler
  simp only [hd]
  exact ⟨rfl, rfl, trivial⟩

/-- Witness for C6: `?delay=abc&error-rate=100`. -/
theorem malformed_delay_400_witness :
    (birdHandler sampleLib threeBirds (-1) ⟨[("delay", "abc"), ("error-rate", "100")]⟩ 0).outcome =
        .json 400 ⟨"host", "v1"⟩
          (.error ("error parsing query param \"delay\": "
            ++ "strconv.ParseFloat: parsing: invalid syntax")) ∧
      (birdHandler sampleLib threeBirds (-1)
        ⟨[("delay", "abc"), ("error-rate", "100")]⟩ 0).outcome.status = 400 ∧
      (birdHandler sampleLib threeBirds (-1)
        ⟨[("delay", "abc"), ("error-rate", "100")]⟩ 0).birdCallCount = -1 :=
  malformed_delay_400 sampleLib threeBirds (-1) ⟨[("delay", "abc"), ("error-rate", "100")]⟩ 0
    "strconv.ParseFloat: parsing: invalid syntax" (by decide) (by decide) (by rfl)

/-- The error-handling block on an `error-rate` value that parses to `p`. -/
theorem errorHandling_of_parsed {F : Type} (lib : Lib F) (srv : Server) (req : Request)
    (draw : Fin 101) (p : Int)
    (hne : req.Query "error-rate" ≠ "") (h0 : req.Query "error-rate" ≠ "0")
    (hp : Atoi (req.Query "error-rate") = .ok p) :
    errorHandling lib srv req draw =
      if ((draw.val : Nat) : Int) ≤ p then
        some (.json 503 srv.metadata (.error "randomly generated error"))
      else none := by
  unfold errorHandling
  simp only
  rw [if_pos ⟨hne, h0⟩, hp]

theorem card_draws_le (n : Nat) (hn : n ≤ 100) :
    (Finset.univ.filter (fun draw : Fin 101 => ((draw.val : Nat) : Int) ≤ (n : Int))).card = n + 1 := by
  have h : Finset.univ.filter (fun draw : Fin 101 => ((draw.val : Nat) : Int) ≤ (n : Int))
      = Finset.Iic (⟨n, by omega⟩ : Fin 101) := by
    ext d
    simp only [Finset.mem_filter, Finset.mem_univ, true_and, Finset.mem_Iic, Fin.le_def]
    omega
  rw [h, Fin.card_Iic]

/-- C10: for an `error-rate` string other than `""` and `"0"` that parses to
the integer `p`, the error-handling block answers the synthetic 503 exactly
for the draws `d` in [0,100] with `d <= p` and falls through to the selection
for the others; for `0 <= p <= 100` exactly `p + 1` of the 101 draws give the
error; every `p >= 100` always errors and every negative `p` never does; the
value `"00"` parses to 0 and still errors on draw 0. With a delay that is
absent, `"0"` or parses, the same holds for the status of the whole handler. -/
theorem errorRate_threshold {F : Type} (lib : Lib F) (srv : Server) (req : Request) (p : Int)
    (hne : req.Query "error-rate" ≠ "") (h0 : req.Query "error-rate" ≠ "0")
    (hp : Atoi (req.Query "error-rate") = .ok p) :
    (∀ draw : Fin 101,
      errorHandling lib srv req draw =
          some (.json 503 srv.metadata (.error "randomly generated error")) ↔
        ((draw.val : Nat) : Int) ≤ p) ∧
    (∀ draw : Fin 101, ¬ ((draw.val : Nat) : Int) ≤ p → errorHandling lib srv req draw = none) ∧
    (0 ≤ p → p ≤ 100 →
      (Finset.univ.filter (fun draw : Fin 101 =>
        errorHandling lib srv req draw =
          some (.json 503 srv.metadata (.error "randomly generated error")))).card
        = p.toNat + 1) ∧
    (100 ≤ p → ∀ draw : Fin 101,
      errorHandling lib srv req draw =
        some (.json 503 srv.metadata (.error "randomly generated error"))) ∧
    (p < 0 → ∀ draw : Fin 101, errorHandling lib srv req draw = none) ∧
    (Atoi "00" = .ok 0 ∧
      errorHandling lib srv ⟨[("error-rate", "00")]⟩ 0 =
        some (.json 503 srv.metadata (.error "randomly generated error"))) ∧
    (∀ (c : Int) (draw : Fin 101), delayOK lib req →
      ((birdHandler lib srv c req draw).outcome.status = 503 ↔ ((draw.val : Nat) : Int) ≤ p)) := by
  have key := fun draw => errorHandling_of_parsed lib srv req draw p hne h0 hp
  have hiff : ∀ draw : Fin 101,
      errorHandling lib srv req draw =
          some (.json 503 srv.metadata (.error "randomly generated error")) ↔
        ((draw.val : Nat) : Int) ≤ p := by
    intro draw
    rw [key draw]
    by_cases h : ((draw.val : Nat) : Int) ≤ p
    · simp only [h, if_true]
    · simp only [h, if_false, iff_false]
      exact fun hh => Option.noConfusion hh
  refine ⟨hiff, ?_, ?_, ?_, ?_, ?_, ?_⟩
  · intro draw h
    rw [key draw, if_neg h]
  · intro hp0 hp100
    have hcast : ((p.toNat : Nat) : Int) = p := Int.toNat_of_nonneg hp0
    have hfilter : Finset.univ.filter (fun draw : Fin 101 =>
        errorHandling lib srv req draw =
          some (.json 503 srv.metadata (.error "randomly generated error")))
        = Finset.univ.filter (fun draw : Fin 101 => ((draw.val : Nat) : Int) ≤ ((p.toNat : Nat) : Int)) := by
      apply Finset.filter_congr
      intro draw _
      rw [hiff draw, hcast]
    rw [hfilter]
    exact card_draws_le p.toNat (by omega)
  · intro h100 draw
    have := draw.isLt
    exact (hiff draw).mpr (by omega)
  · intro hneg draw
    rw [key draw, if_neg (by omega)]
  · refine ⟨by rfl, ?_⟩
    have h00 : Atoi "00" = .ok 0 := by rfl
    have hq : (⟨[("error-rate", "00")]⟩ : Request).Query "error-rate" = "00" := by decide
    rw [errorHandling_of_parsed lib srv ⟨[("error-rate", "00")]⟩ 0 0
      (by rw [hq]; decide) (by rw [hq]; decide) (by rw [hq]; exact h00)]
    rfl
  · intro c draw hdelay
    obtain ⟨s, hs⟩ := delayHandling_of_delayOK lib srv req hdelay
    by_cases h : ((draw.val : Nat) : Int) ≤ p
    · have he := (hiff draw).mpr h
      have : (birdHandler lib srv c req draw).outcome =
          .json 503 srv.metadata (.error "randomly generated error") := by
        unfold birdHandler
        simp only [hs, he]
      rw [this]
      exact ⟨fun _ => h, fun _ => rfl⟩
    · have he : errorHandling lib srv req draw = none := by rw [key draw, if_neg h]
      have : (birdHandler lib srv c req draw).outcome = (pickBird srv c).1 := by
        unfold birdHandler
        simp only [hs, he]
      rw [this]
      constructor
      · intro h503
        rcases pickBird_status srv c with h' | h' <;> rw [h'] at h503 <;>
          exact absurd h503 (by decide)
      · intro hh
        exact absurd hh h

/-- Witness for C10: `?error-rate=37` errors on exactly 38 of the 101 draws. -/
theorem errorRate_threshold_witness :
    (Finset.univ.filter (fun draw : Fin 101 =>
        errorHandling sampleLib threeBirds ⟨[("error-rate", "37")]⟩ draw =
          some (.json 503 threeBirds.metadata (.error "randomly generated error")))).card
      = (37 : Int).toNat + 1 :=
  (errorRate_threshold sampleLib threeBirds ⟨[("error-rate", "37")]⟩ 37
    (by decide) (by decide) (by rfl)).2.2.1 (by decide) (by decide)

/-! ## Backend: the selection sequence -/

theorem birdHandler_birdCallCount {F : Type} (lib : Lib F) (srv : Server) (c : Int)
    (r : Request × Fin 101) :
    (birdHandler lib srv c r.1 r.2).birdCallCount =
      if reachesSelection lib srv r then wrapInt64 (c + 1) else c := by
  rcases birdHandler_cases lib srv c r.1 r.2 with ⟨hr, hc, _⟩ | ⟨hr, _, hc⟩
  · rw [hc, if_neg (by rw [hr]; decide)]
  · rw [hc, if_pos hr, pickBird_snd]

/-- The counter after a list of requests: the start value plus the number of
requests that ran the selection, wrapped to `int64`. -/
theorem serveAll_eq {F : Type} (lib : Lib F) (srv : Server) (rs : List (Request × Fin 101)) :
    ∀ c : Int, isInt64 c →
      serveAll lib srv c rs = wrapInt64 (c + (rs.countP (reachesSelection lib srv) : Nat)) := by
  induction rs with
  | nil =>
    intro c hc
    simp only [serveAll, List.countP_nil, Nat.cast_zero, add_zero]
    exact (wrapInt64_of_isInt64 c hc).symm
  | cons r rs ih =>
    intro c hc
    simp only [serveAll]
    rw [birdHandler_birdCallCount, List.countP_cons]
    by_cases hr : reachesSelection lib srv r = true
    · rw [if_pos hr, if_pos hr, ih _ (isInt64_wrapInt64 _), wrapInt64_add_wrap]
      congr 1
      push_cast
      ring
    · rw [if_neg hr, if_neg hr, ih _ hc]
      simp

theorem countP_replicate_of_true {α : Type} (p : α → Bool) (a : α) (h : p a = true) (n : Nat) :
    (List.replicate n a).countP p = n := by
  induction n with
  | zero => rfl
  | succ n ih => rw [List.replicate_succ, List.countP_cons, ih, if_pos h]

/-- Counterexample to C1 as stated (every `k >= 0`): on a dataset of three
records, after 2^63 requests that ran the selection the `int64` counter is at
its maximum; the next request wraps it, the remainder is negative and the
slice index panics, so request number 2^63 + 1 is answered 500, not 200. -/
theorem selection_panics_after_counter_wrap :
    threeBirds.birdList ≠ [] ∧
    (List.replicate 9223372036854775808 (plainRequest, (0 : Fin 101))).countP
        (reachesSelection sampleLib threeBirds) = 9223372036854775808 ∧
    reachesSelection sampleLib threeBirds (plainRequest, 0) = true ∧
    (birdHandler sampleLib threeBirds
        (serveAll sampleLib threeBirds initialBirdCallCount
          (List.replicate 9223372036854775808 (plainRequest, (0 : Fin 101))))
        plainRequest 0).outcome = .panicked ∧
    (birdHandler sampleLib threeBirds
        (serveAll sampleLib threeBirds initialBirdCallCount
          (List.replicate 9223372036854775808 (plainRequest, (0 : Fin 101))))
        plainRequest 0).outcome.status = 500 := by
  have hr : reachesSelection sampleLib threeBirds (plainRequest, 0) = true := by decide
  have hcount := countP_replicate_of_true (reachesSelection sampleLib threeBirds)
    (plainRequest, (0 : Fin 101)) hr 9223372036854775808
  have hc : serveAll sampleLib threeBirds initialBirdCallCount
      (List.replicate 9223372036854775808 (plainRequest, (0 : Fin 101))) = 9223372036854775807 := by
    rw [serveAll_eq _ _ _ _ (by decide), hcount]
    decide
  rw [hc]
  exact ⟨by decide, hcount, hr, by decide, by decide⟩

/-- C1 (amended): on a non-empty dataset of length `n`, the counter starting
at -1, let `k` be the number of earlier requests that ran the selection; for
every `k < 2^63` the next request that runs the selection is answered 200 with
`name`, `imageURL` and `extract` taken from `dataset[k mod n]`, and the
counter is then `k`. The first served request maps to index 0 and the names
repeat with period `n`. -/
theorem nth_selection_round_robin {F : Type} (lib : Lib F) (srv : Server)
    (rs : List (Request × Fin 101)) (r : Request × Fin 101)
    (hne : srv.birdList ≠ [])
    (hk : rs.countP (reachesSelection lib srv) < 9223372036854775808)
    (hr : reachesSelection lib srv r = true) :
    ∃ b, srv.birdList[rs.countP (reachesSelection lib srv) % srv.birdList.length]? = some b ∧
      (birdHandler lib srv (serveAll lib srv initialBirdCallCount rs) r.1 r.2).outcome =
        .json 200 ⟨srv.hostname, srv.version⟩
          (.response ⟨b.Title, b.Thumbnail.Source, b.ExtractHTML⟩) ∧
      (birdHandler lib srv (serveAll lib srv initialBirdCallCount rs) r.1 r.2).birdCallCount =
        (rs.countP (reachesSelection lib srv) : Nat) := by
  have hc : serveAll lib srv initialBirdCallCount rs
      = (rs.countP (reachesSelection lib srv) : Nat) - 1 := by
    rw [serveAll_eq lib srv rs _ (by decide)]
    apply (wrapInt64_of_isInt64 _ _).trans
    · unfold initialBirdCallCount; omega
    · unfold isInt64 initialBirdCallCount minInt64 maxInt64; omega
  obtain ⟨b, hb, hpick⟩ := pickBird_of_inRange srv
    ((rs.countP (reachesSelection lib srv) : Nat) - 1) hne (by omega) (by unfold maxInt64; omega)
  rw [sub_add_cancel, Int.toNat_ofNat] at hb
  rw [sub_add_cancel] at hpick
  refine ⟨b, hb, ?_⟩
  rw [hc]
  rcases birdHandler_cases lib srv ((rs.countP (reachesSelection lib srv) : Nat) - 1) r.1 r.2 with
    ⟨hr', _, _⟩ | ⟨_, hout, hcnt⟩
  · rw [hr] at hr'
    exact absurd hr' (by decide)
  · rw [hpick] at hout hcnt
    exact ⟨hout, hcnt⟩

/-- Witness for C1: after one served request and one request answered 503, the
next served request gets the second record. -/
theorem nth_selection_round_robin_witness :
    ∃ b, threeBirds.birdList[
        [(plainRequest, (0 : Fin 101)), (⟨[("error-rate", "100")]⟩, 0)].countP
          (reachesSelection sampleLib threeBirds) % threeBirds.birdList.length]? = some b ∧
      (birdHandler sampleLib threeBirds
        (serveAll sampleLib threeBirds initialBirdCallCount
          [(plainRequest, (0 : Fin 101)), (⟨[("error-rate", "100")]⟩, 0)])
        plainRequest 0).outcome =
        .json 200 ⟨threeBirds.hostname, threeBirds.version⟩
          (.response ⟨b.Title, b.Thumbnail.Source, b.ExtractHTML⟩) ∧
      (birdHandler sampleLib threeBirds
        (serveAll sampleLib threeBirds initialBirdCallCount
          [(plainRequest, (0 : Fin 101)), (⟨[("error-rate", "100")]⟩, 0)])
        plainRequest 0).birdCallCount =
        ([(plainRequest, (0 : Fin 101)), (⟨[("error-rate", "100")]⟩, 0)].countP
          (reachesSelection sampleLib threeBirds) : Nat) :=
  nth_selection_round_robin sampleLib threeBirds
    [(plainRequest, (0 : Fin 101)), (⟨[("error-rate", "100")]⟩, 0)] (plainRequest, 0)
    (by decide) (by decide) (by decide)

/-! ## Backend: startup and the dataset -/

theorem pickBird_of_empty (srv : Server) (c : Int) (h : srv.birdList = []) :
    pickBird srv c = (.panicked, wrapInt64 (c + 1)) := by
  unfold pickBird
  simp [h]

theorem birds_eq_ok (s : Startup) (l : List birdRawData) :
    birds s = .ok l ↔ s.Unmarshal s.birdData = .ok l := by
  unfold birds
  cases s.Unmarshal s.birdData with
  | error e => simp
  | ok l' => simp

theorem canaries_eq_ok (s : Startup) (l : List birdRawData) :
    canaries s = .ok l ↔ s.Unmarshal s.canaryData = .ok l := by
  unfold canaries
  cases s.Unmarshal s.canaryData with
  | error e => simp
  | ok l' => simp

/-- A successful startup: the version is supported and the dataset is what the
active loader returned. -/
theorem backendMain_ok (s : Startup) (srv : Server) (h : backendMain s = .ok srv) :
    ¬ (s.VERSION ≠ "" ∧ s.VERSION ≠ "v1" ∧ s.VERSION ≠ "v2") ∧
    srv.version = (if s.VERSION ≠ "" then s.VERSION else defaultVersion) ∧
    (if srv.version = defaultVersion then birds s else canaries s) = .ok srv.birdList := by
  unfold backendMain at h
  cases h1 : s.trustedProxiesErr with
  | some e => rw [h1] at h; cases h
  | none =>
    rw [h1] at h
    simp only at h
    generalize (if s.TRACING_URL ≠ "" then
      s.initTracing s.TRACING_URL (if s.BIND_ADDR ≠ "" then s.BIND_ADDR else defaultBindAddr) "backend"
      else none) = tr at h
    cases tr with
    | some e => cases h
    | none =>
      simp only at h
      by_cases hv : s.VERSION ≠ "" ∧ s.VERSION ≠ "v1" ∧ s.VERSION ≠ "v2"
      · rw [if_pos hv] at h; cases h
      · rw [if_neg hv] at h
        generalize hds : (if (if s.VERSION ≠ "" then s.VERSION else defaultVersion) = defaultVersion
          then birds s else canaries s) = ds at h
        cases ds with
        | error e => cases h
        | ok l =>
          simp only [Except.ok.injEq] at h
          subst h
          exact ⟨hv, rfl, hds⟩

theorem backendMain_version (s : Startup) (srv : Server) (h : backendMain s = .ok srv) :
    (srv.version = "v1" ∧ (s.VERSION = "" ∨ s.VERSION = "v1")) ∨
      (srv.version = "v2" ∧ s.VERSION = "v2") := by
  obtain ⟨hv, hver, _⟩ := backendMain_ok s srv h
  by_cases h0 : s.VERSION = ""
  · left
    rw [hver, if_neg (by simp [h0])]
    exact ⟨rfl, Or.inl h0⟩
  · rw [if_pos h0] at hver
    by_cases h1 : s.VERSION = "v1"
    · left; exact ⟨hver.trans h1, Or.inr h1⟩
    · have h2 : s.VERSION = "v2" := by
        by_contra h2
        exact hv ⟨h0, h1, h2⟩
      right; exact ⟨hver.trans h2, h2⟩

/-- Counterexample to C9: with `birds.json` equal to `[]` the active buffer
decodes without error to the empty list, startup is not fatal (the server
runs with an empty dataset), and a request that reaches the selection steps
the counter and panics on the zero divisor: it is answered 500. -/
theorem empty_dataset_starts_and_panics :
    emptyDatasetStartup.Unmarshal emptyDatasetStartup.birdData = .ok [] ∧
    backendMain emptyDatasetStartup = .ok ⟨"host", "v1", []⟩ ∧
    reachesSelection sampleLib ⟨"host", "v1", []⟩ (plainRequest, 0) = true ∧
    (birdHandler sampleLib ⟨"host", "v1", []⟩ initialBirdCallCount plainRequest 0).outcome
      = .panicked ∧
    (birdHandler sampleLib ⟨"host", "v1", []⟩ initialBirdCallCount plainRequest 0).outcome.status
      = 500 ∧
    (birdHandler sampleLib ⟨"host", "v1", []⟩ initialBirdCallCount plainRequest 0).birdCallCount
      = 0 := by
  refine ⟨by rfl, by rfl, by decide, by decide, by decide, by decide⟩

/-- Startup succeeds with the decoded list, whatever its length, when nothing
before the dataset is fatal and the active buffer decodes. -/
theorem backendMain_accepts (s : Startup) (l : List birdRawData)
    (hp : s.trustedProxiesErr = none)
    (ht : (if s.TRACING_URL ≠ "" then
        s.initTracing s.TRACING_URL
          (if s.BIND_ADDR ≠ "" then s.BIND_ADDR else defaultBindAddr) "backend"
        else none) = none) :
    ((s.VERSION = "" ∨ s.VERSION = "v1") → s.Unmarshal s.birdData = .ok l →
      backendMain s = .ok ⟨hostnameOrError s.Hostname, "v1", l⟩) ∧
    (s.VERSION = "v2" → s.Unmarshal s.canaryData = .ok l →
      backendMain s = .ok ⟨hostnameOrError s.Hostname, "v2", l⟩) := by
  constructor
  · intro hV hu
    have hb : birds s = .ok l := (birds_eq_ok s l).mpr hu
    unfold backendMain
    simp only [hp, ht]
    rcases hV with h | h <;> simp [h, defaultVersion, hb]
  · intro hV hu
    have hb : canaries s = .ok l := (canaries_eq_ok s l).mpr hu
    unfold backendMain
    simp only [hp, ht]
    simp [hV, defaultVersion, hb]

/-- C9 (amended): startup is fatal when the version is unsupported or the
active buffer (canonical for v1, canary for v2) fails to decode. When nothing
before the dataset is fatal (trusted proxies, tracing) and the active buffer
decodes, startup succeeds and the decoded list is the dataset, whatever its
length, the empty list included; and whenever startup succeeds the dataset is
the list the active buffer decodes to. When the selection runs over a
non-empty dataset from a counter in [-1, 2^63 - 2], the remainder `idx % len`
is a valid index and the selection answers 200. -/
theorem startup_dataset (s : Startup) :
    (∀ srv, backendMain s = .ok srv →
      (srv.version = "v1" ∨ srv.version = "v2") ∧
      s.Unmarshal (if srv.version = "v1" then s.birdData else s.canaryData) = .ok srv.birdList) ∧
    (∀ l : List birdRawData, s.trustedProxiesErr = none →
      (if s.TRACING_URL ≠ "" then
        s.initTracing s.TRACING_URL
          (if s.BIND_ADDR ≠ "" then s.BIND_ADDR else defaultBindAddr) "backend"
        else none) = none →
      ((s.VERSION = "" ∨ s.VERSION = "v1") → s.Unmarshal s.birdData = .ok l →
        backendMain s = .ok ⟨hostnameOrError s.Hostname, "v1", l⟩) ∧
      (s.VERSION = "v2" → s.Unmarshal s.canaryData = .ok l →
        backendMain s = .ok ⟨hostnameOrError s.Hostname, "v2", l⟩)) ∧
    ((s.VERSION = "" ∨ s.VERSION = "v1") → (∃ e, s.Unmarshal s.birdData = .error e) →
      ∃ msg, backendMain s = .error msg) ∧
    (s.VERSION = "v2" → (∃ e, s.Unmarshal s.canaryData = .error e) →
      ∃ msg, backendMain s = .error msg) ∧
    ((s.VERSION ≠ "" ∧ s.VERSION ≠ "v1" ∧ s.VERSION ≠ "v2") → ∃ msg, backendMain s = .error msg) ∧
    (∀ srv c, backendMain s = .ok srv → srv.birdList ≠ [] → -1 ≤ c → c < maxInt64 →
      0 ≤ Int.tmod (wrapInt64 (c + 1)) (srv.birdList.length : Int) ∧
      Int.tmod (wrapInt64 (c + 1)) (srv.birdList.length : Int) < (srv.birdList.length : Int) ∧
      (pickBird srv c).1.status = 200) := by
  have hdata : ∀ srv, backendMain s = .ok srv →
      (srv.version = "v1" ∨ srv.version = "v2") ∧
      s.Unmarshal (if srv.version = "v1" then s.birdData else s.canaryData) = .ok srv.birdList := by
    intro srv h
    obtain ⟨_, _, hds⟩ := backendMain_ok s srv h
    rcases backendMain_version s srv h with ⟨h1, _⟩ | ⟨h2, _⟩
    · refine ⟨Or.inl h1, ?_⟩
      rw [if_pos (by rw [h1]; rfl)] at hds
      rw [if_pos h1]
      exact (birds_eq_ok s _).mp hds
    · refine ⟨Or.inr h2, ?_⟩
      rw [if_neg (by rw [h2]; decide)] at hds
      rw [if_neg (by rw [h2]; decide)]
      exact (canaries_eq_ok s _).mp hds
  have hfatal : ∀ P : Prop, (∀ srv, backendMain s = .ok srv → ¬ P) → P →
      ∃ msg, backendMain s = .error msg := by
    intro P hP hp
    cases hm : backendMain s with
    | error msg => exact ⟨msg, rfl⟩
    | ok srv => exact absurd hp (hP srv hm)
  refine ⟨hdata, fun l hp ht => backendMain_accepts s l hp ht, ?_, ?_, ?_, ?_⟩
  · intro hV ⟨e, he⟩
    apply hfatal _ _ he
    intro srv h hu
    obtain ⟨_, hd⟩ := hdata srv h
    rcases backendMain_version s srv h with ⟨h1, _⟩ | ⟨_, h2⟩
    · rw [if_pos h1, hu] at hd; cases hd
    · rcases hV with hV | hV <;> rw [hV] at h2 <;> exact absurd h2 (by decide)
  · intro hV ⟨e, he⟩
    apply hfatal _ _ he
    intro srv h hu
    obtain ⟨_, hd⟩ := hdata srv h
    rcases backendMain_version s srv h with ⟨_, h1⟩ | ⟨h2, _⟩
    · rcases h1 with h1 | h1 <;> rw [hV] at h1 <;> exact absurd h1 (by decide)
    · rw [if_neg (by rw [h2]; decide), hu] at hd; cases hd
  · intro hV
    apply hfatal _ _ hV
    intro srv h
    exact (backendMain_ok s srv h).1
  · intro srv c _ hne hlo hhi
    obtain ⟨b, _, hb⟩ := pickBird_of_inRange srv c hne hlo hhi
    have hlen : 0 < srv.birdList.length := List.length_pos.mpr hne
    have hw : wrapInt64 (c + 1) = c + 1 := by
      apply wrapInt64_of_isInt64
      unfold isInt64 minInt64; unfold maxInt64 at *; omega
    have hn0 : (0 : Int) ≤ c + 1 := by omega
    rw [hw, Int.tmod_eq_emod hn0 (by omega), hb]
    exact ⟨Int.emod_nonneg _ (by omega), Int.emod_lt_of_pos _ (by omega), rfl⟩

/-- Witness for C9: the startup with three records is accepted with the
decoded list as dataset, and the first selection answers 200 from a valid
index. -/
theorem startup_dataset_witness :
    backendMain threeBirdsStartup = .ok ⟨"host", "v1", threeBirds.birdList⟩ ∧
    0 ≤ Int.tmod (wrapInt64 (initialBirdCallCount + 1)) (threeBirds.birdList.length : Int) ∧
    Int.tmod (wrapInt64 (initialBirdCallCount + 1)) (threeBirds.birdList.length : Int)
      < (threeBirds.birdList.length : Int) ∧
    (pickBird threeBirds initialBirdCallCount).1.status = 200 :=
  ⟨((startup_dataset threeBirdsStartup).2.1 threeBirds.birdList (by rfl) (by rfl)).1
      (Or.inl (by rfl)) (by rfl),
    (startup_dataset threeBirdsStartup).2.2.2.2.2 threeBirds initialBirdCallCount
      (by rfl) (by decide) (by decide) (by decide)⟩

/-! ## Frontend: `roundDuration` -/

/-- The value `nearestMultiple d unit` is a multiple of the unit, at most half
a unit from `d`, and on a tie it is the one away from zero (both units of
`roundDuration`). -/
theorem nearestMultiple_spec (d : Int) :
    (nearestMultiple d Millisecond % Millisecond = 0 ∧
      -Millisecond ≤ 2 * (nearestMultiple d Millisecond - d) ∧
      2 * (nearestMultiple d Millisecond - d) ≤ Millisecond ∧
      (2 * (nearestMultiple d Millisecond - d) = Millisecond → 0 ≤ d) ∧
      (2 * (nearestMultiple d Millisecond - d) = -Millisecond → d < 0)) ∧
    (nearestMultiple d Microsecond % Microsecond = 0 ∧
      -Microsecond ≤ 2 * (nearestMultiple d Microsecond - d) ∧
      2 * (nearestMultiple d Microsecond - d) ≤ Microsecond ∧
      (2 * (nearestMultiple d Microsecond - d) = Microsecond → 0 ≤ d) ∧
      (2 * (nearestMultiple d Microsecond - d) = -Microsecond → d < 0)) := by
  unfold nearestMultiple Millisecond Microsecond
  rcases lt_or_le d 0 with h | h
  · have hn : ¬ 0 ≤ d := by omega
    rw [if_neg hn, if_neg hn]
    refine ⟨⟨?_, ?_, ?_, ?_, ?_⟩, ⟨?_, ?_, ?_, ?_, ?_⟩⟩ <;> omega
  · rw [if_pos h, if_pos h]
    refine ⟨⟨?_, ?_, ?_, ?_, ?_⟩, ⟨?_, ?_, ?_, ?_, ?_⟩⟩ <;> omega

/-- The code against the specification: equal when the rounded value is an
`int64`, saturated otherwise. -/
theorem roundDuration_cases (d : Int) (hd : isInt64 d) :
    (isInt64 (roundDurationSpec d) → roundDuration d = roundDurationSpec d) ∧
    (¬ isInt64 (roundDurationSpec d) →
      roundDuration d = if d < 0 then minInt64 else maxInt64) := by
  unfold isInt64 at hd
  obtain ⟨hlo, hhi⟩ := hd
  unfold roundDuration roundDurationSpec
  simp only [one_mul]
  by_cases h1 : d > Millisecond
  · have hge : d ≥ Millisecond := by unfold Millisecond at *; omega
    have hpos : 0 ≤ d := by unfold Millisecond at *; omega
    have hnn : ¬ d < 0 := by omega
    rw [if_pos h1, if_pos hge, Round_of_nonneg d Millisecond hpos hhi (by decide) (by decide)]
    unfold nearestMultiple isInt64
    rw [if_pos hpos, if_neg hnn]
    unfold Millisecond minInt64 maxInt64 at *
    constructor
    · intro hs
      split_ifs <;> omega
    · intro hs
      split_ifs <;> omega
  · rw [if_neg h1]
    by_cases h2 : d = Millisecond
    · subst h2
      constructor
      · intro _; decide
      · intro hs; exact absurd (by decide) hs
    · have hlt : ¬ d ≥ Millisecond := by unfold Millisecond at *; omega
      rw [if_neg hlt]
      rcases lt_or_le d 0 with hneg | hpos
      · have hn : ¬ 0 ≤ d := by omega
        rw [Round_of_neg d Microsecond hneg hlo (by decide) (by decide)]
        unfold nearestMultiple isInt64
        rw [if_neg hn, if_pos hneg]
        unfold Microsecond minInt64 maxInt64 at *
        constructor
        · intro hs
          split_ifs <;> omega
        · intro hs
          split_ifs <;> omega
      · have hnn : ¬ d < 0 := by omega
        rw [Round_of_nonneg d Microsecond hpos hhi (by decide) (by decide)]
        unfold nearestMultiple isInt64
        rw [if_pos hpos, if_neg hnn]
        unfold Microsecond Millisecond minInt64 maxInt64 at *
        constructor
        · intro hs
          split_ifs <;> omega
        · intro hs
          split_ifs <;> omega

/-- The durations whose rounded value is an `int64`. -/
theorem isInt64_roundDurationSpec_iff (d : Int) (hd : isInt64 d) :
    isInt64 (roundDurationSpec d) ↔
      -9223372036854775500 < d ∧ d < 9223372036854500000 := by
  unfold isInt64 at *
  unfold roundDurationSpec nearestMultiple
  unfold Millisecond Microsecond minInt64 maxInt64 at *
  split_ifs <;> constructor <;> intro h <;> (try constructor) <;> omega

/-- Counterexample to C7 as stated (every `int64` duration): at the largest
duration the rounding would pass the `int64` maximum, `Round` saturates, and
`roundDuration` returns 9223372036854775807 ns, which is not a multiple of
1 ms and differs from the nearest multiple 9223372036855000000. -/
theorem roundDuration_saturates_at_max :
    isInt64 maxInt64 ∧ maxInt64 ≥ Millisecond ∧
    roundDuration maxInt64 = 9223372036854775807 ∧
    roundDurationSpec maxInt64 = 9223372036855000000 ∧
    roundDuration maxInt64 ≠ roundDurationSpec maxInt64 ∧
    roundDuration maxInt64 % Millisecond ≠ 0 := by decide

/-- C7 (amended): for every `int64` duration `d` whose nearest multiple is
itself an `int64` (exactly the `d` with
-9223372036854775500 < d < 9223372036854500000), `roundDuration d` is `d`
rounded to the nearest multiple of 1 ms when `d >= 1 ms` and of 1 µs
otherwise, halves away from zero; outside that range it saturates to the
smallest or largest duration. For every `d` the strict test `d > 1 ms` of the
code gives the same result as the test `d >= 1 ms` of the specification; they
differ only at exactly 1 ms, where both roundings give 1 ms. -/
theorem roundDuration_eq_spec (d : Int) (hd : isInt64 d) :
    (isInt64 (roundDurationSpec d) → roundDuration d = roundDurationSpec d) ∧
    (isInt64 (roundDurationSpec d) ↔
      -9223372036854775500 < d ∧ d < 9223372036854500000) ∧
    (¬ isInt64 (roundDurationSpec d) →
      roundDuration d = if d < 0 then minInt64 else maxInt64) ∧
    roundDuration d =
      (if d ≥ Millisecond then Round d (1 * Millisecond) else Round d (1 * Microsecond)) ∧
    roundDuration Millisecond = Millisecond ∧
    roundDurationSpec Millisecond = Millisecond ∧
    Round Millisecond (1 * Millisecond) = Round Millisecond (1 * Microsecond) := by
  obtain ⟨h1, h2⟩ := roundDuration_cases d hd
  refine ⟨h1, isInt64_roundDurationSpec_iff d hd, h2, ?_, by decide, by decide, by decide⟩
  unfold roundDuration
  by_cases hgt : d > 1 * Millisecond
  · rw [if_pos hgt, if_pos (by unfold Millisecond at *; omega)]
  · rw [if_neg hgt]
    by_cases heq : d = Millisecond
    · subst heq; decide
    · rw [if_neg (by unfold Millisecond at *; omega)]

/-- Witness for C7: 1.5 ms rounds to 2 ms. -/
theorem roundDuration_eq_spec_witness :
    isInt64 1500000 ∧ isInt64 (roundDurationSpec 1500000) ∧
      roundDuration 1500000 = roundDurationSpec 1500000 ∧ roundDuration 1500000 = 2000000 :=
  ⟨by decide, by decide,
    (roundDuration_eq_spec 1500000 (by decide)).1 (by decide), by decide⟩

/-! ## Frontend: query propagation -/

theorem Values.Get_Set (m : Values) (k v k' : String) :
    Values.Get (Values.Set m k v) k' = if k = k' then [v] else Values.Get m k' := by
  induction m with
  | nil =>
    simp only [Values.Set, Values.Get]
  | cons e t ih =>
    obtain ⟨k0, vs⟩ := e
    simp only [Values.Set]
    split_ifs with h0 h1 <;> simp only [Values.Get, ih] <;> split_ifs <;> simp_all

theorem Values.Get_Add (m : Values) (k v k' : String) :
    Values.Get (Values.Add m k v) k' =
      if k = k' then Values.Get m k' ++ [v] else Values.Get m k' := by
  induction m with
  | nil =>
    simp only [Values.Add, Values.Get, List.nil_append]
  | cons e t ih =>
    obtain ⟨k0, vs⟩ := e
    simp only [Values.Add]
    split_ifs with h0 h1 <;> simp only [Values.Get, ih] <;> split_ifs <;> simp_all

/-- Well-formed map: one entry per key, no entry without a value. -/
theorem Values.Add_wf (m : Values) (k v : String)
    (h : (m.map Prod.fst).Nodup ∧ ∀ e ∈ m, e.2 ≠ []) :
    ((Values.Add m k v).map Prod.fst).Nodup ∧ ∀ e ∈ Values.Add m k v, e.2 ≠ [] := by
  induction m with
  | nil =>
    simp [Values.Add]
  | cons e t ih =>
    obtain ⟨k0, vs⟩ := e
    obtain ⟨hnd, hne⟩ := h
    simp only [List.map_cons, List.nodup_cons] at hnd
    have iht := ih ⟨hnd.2, fun e he => hne e (List.mem_cons_of_mem _ he)⟩
    simp only [Values.Add]
    by_cases h0 : k0 = k
    · rw [if_pos h0]
      refine ⟨by simpa using hnd, ?_⟩
      intro e he
      rcases List.mem_cons.mp he with rfl | he
      · simp
      · exact hne e (List.mem_cons_of_mem _ he)
    · rw [if_neg h0]
      have hkeys : ∀ x ∈ (Values.Add t k v).map Prod.fst, x = k ∨ x ∈ t.map Prod.fst := by
        clear ih iht hnd hne
        induction t with
        | nil => simp [Values.Add]
        | cons e' t' ih' =>
          obtain ⟨k1, vs1⟩ := e'
          intro x hx
          simp only [Values.Add] at hx
          by_cases h1 : k1 = k
          · rw [if_pos h1] at hx
            right; simpa using hx
          · rw [if_neg h1] at hx
            simp only [List.map_cons, List.mem_cons] at hx ⊢
            rcases hx with hx | hx
            · right; left; exact hx
            · rcases ih' x hx with h | h
              · left; exact h
              · right; right; exact h
      refine ⟨?_, ?_⟩
      · simp only [List.map_cons, List.nodup_cons]
        refine ⟨fun hmem => ?_, iht.1⟩
        rcases hkeys k0 hmem with h | h
        · exact h0 h
        · exact hnd.1 h
      · intro e he
        rcases List.mem_cons.mp he with rfl | he
        · exact hne _ (List.mem_cons_self _ _)
        · exact iht.2 e he

theorem ParseQuery_foldl (pairs : List (String × String)) :
    ∀ m : Values, ((m.map Prod.fst).Nodup ∧ ∀ e ∈ m, e.2 ≠ []) →
      (((pairs.foldl (fun m p => Values.Add m p.1 p.2) m).map Prod.fst).Nodup ∧
        ∀ e ∈ pairs.foldl (fun m p => Values.Add m p.1 p.2) m, e.2 ≠ []) ∧
      ∀ k, Values.Get (pairs.foldl (fun m p => Values.Add m p.1 p.2) m) k =
        Values.Get m k ++ (pairs.filter (fun p => p.1 = k)).map Prod.snd := by
  induction pairs with
  | nil => intro m hm; exact ⟨hm, fun k => by simp⟩
  | cons p ps ih =>
    intro m hm
    obtain ⟨hwf, hget⟩ := ih (Values.Add m p.1 p.2) (Values.Add_wf m p.1 p.2 hm)
    refine ⟨hwf, fun k => ?_⟩
    rw [List.foldl_cons, hget k, Values.Get_Add]
    by_cases h : p.1 = k
    · rw [if_pos h, List.filter_cons_of_pos (by simpa using h)]
      simp
    · rw [if_neg h, List.filter_cons_of_neg (by simpa using h)]

theorem Values.Get_of_not_mem (m : Values) (k : String) (h : k ∉ m.map Prod.fst) :
    Values.Get m k = [] := by
  induction m with
  | nil => rfl
  | cons e t ih =>
    obtain ⟨k0, vs⟩ := e
    simp only [List.map_cons, List.mem_cons, not_or] at h
    simp only [Values.Get]
    rw [if_neg (fun hh => h.1 hh.symm)]
    exact ih h.2

/-- The propagation loop over a well-formed caller map never panics; each
caller key ends with the single value `v[0]`, every other key keeps its
value. -/
theorem propagateQuery_spec (caller : Values) :
    ∀ q : Values, ((caller.map Prod.fst).Nodup ∧ ∀ e ∈ caller, e.2 ≠ []) →
      ∃ out, propagateQuery q caller = some out ∧
        ∀ k, Values.Get out k =
          match Values.Get caller k with
          | [] => Values.Get q k
          | v0 :: _ => [v0] := by
  induction caller with
  | nil =>
    intro q _
    exact ⟨q, rfl, fun k => rfl⟩
  | cons e t ih =>
    intro q hwf
    obtain ⟨k0, vs⟩ := e
    obtain ⟨hnd, hne⟩ := hwf
    simp only [List.map_cons, List.nodup_cons] at hnd
    cases vs with
    | nil => exact absurd rfl (hne (k0, []) (List.mem_cons_self _ _))
    | cons v0 vs' =>
      obtain ⟨out, hout, hget⟩ := ih (Values.Set q k0 v0)
        ⟨hnd.2, fun e he => hne e (List.mem_cons_of_mem _ he)⟩
      refine ⟨out, hout, fun k => ?_⟩
      rw [hget k]
      simp only [Values.Get]
      by_cases h : k0 = k
      · rw [if_pos h, Values.Get_of_not_mem t k (by rw [← h]; exact hnd.1), Values.Get_Set, if_pos h]
      · rw [if_neg h, Values.Get_Set, if_neg h]


/-- The parsed caller query: one entry per key, each with the values of that
key in order of appearance. -/
theorem ParseQuery_spec (pairs : List (String × String)) :
    (((ParseQuery pairs).map Prod.fst).Nodup ∧ ∀ e ∈ ParseQuery pairs, e.2 ≠ []) ∧
      ∀ k, Values.Get (ParseQuery pairs) k = (pairs.filter (fun p => p.1 = k)).map Prod.snd := by
  obtain ⟨hwf, hget⟩ := ParseQuery_foldl pairs [] ⟨by simp, by simp⟩
  exact ⟨hwf, fun k => by rw [ParseQuery, hget k]; rfl⟩

/-- The outbound query of `/shuffle` for a caller query given by its pairs. -/
theorem propagateQuery_ParseQuery (defaults : Values) (pairs : List (String × String)) :
    ∃ out, propagateQuery defaults (ParseQuery pairs) = some out ∧
      ∀ k, Values.Get out k =
        match (pairs.filter (fun p => p.1 = k)).map Prod.snd with
        | [] => Values.Get defaults k
        | v0 :: _ => [v0] := by
  obtain ⟨hwf, hget⟩ := ParseQuery_spec pairs
  obtain ⟨out, hout, ho⟩ := propagateQuery_spec (ParseQuery pairs) defaults hwf
  refine ⟨out, hout, fun k => ?_⟩
  rw [ho k, hget k]

theorem String.append_ne_empty_of_left (a b : String) (h : a ≠ "") : a ++ b ≠ "" := by
  intro hab
  apply h
  have hl : (a ++ b).length = 0 := by rw [hab]; rfl
  rw [String.length_append] at hl
  have ha : a.length = 0 := by omega
  exact String.ext (List.length_eq_zero.mp ha)

/-- Counterexample to C8: for the caller query `a=1&a=2` the request handed
to `httpClient.Do` has the query `a=1`; the pair `(a, 2)` of the caller's
query is not in it. -/
theorem repeated_key_later_value_dropped :
    (("a", "2") : String × String) ∈ [("a", "1"), ("a", "2")] ∧
    ParseQuery [("a", "1"), ("a", "2")] = [("a", ["1", "2"])] ∧
    (shuffleHandler sampleFrontLib (.ok []) [("a", "1"), ("a", "2")]
      (fun _ => .error "connection refused") 0).outbound = some [("a", ["1"])] ∧
    "2" ∉ Values.Get [("a", ["1"])] "a" := by
  refine ⟨by decide, by decide, by decide, by decide⟩

/-- C8 (amended): for every caller query the `/shuffle` handler, once the
backend request is constructed, hands `httpClient.Do` one request, and what it
writes is decided by the answer to that request. In the query of that request
every key of the caller's query carries exactly one value, the first one the
caller gave for that key; keys the caller did not give keep the value of the
new request's URL. So a pair whose key appears once is forwarded as it is,
and the later values of a repeated key are not forwarded. -/
theorem forwards_first_value_per_key (lib : FrontLib) (reqQuery : Values)
    (callerQuery : List (String × String)) (Do : Values → Except String HTTPResponse)
    (elapsed : Int) :
    ∃ out, propagateQuery reqQuery (ParseQuery callerQuery) = some out ∧
      (shuffleHandler lib (.ok reqQuery) callerQuery Do elapsed).outbound = some out ∧
      (shuffleHandler lib (.ok reqQuery) callerQuery Do elapsed).outcome =
        shuffleRespond lib (Do out) elapsed ∧
      (∀ k, Values.Get out k =
        match (callerQuery.filter (fun p => p.1 = k)).map Prod.snd with
        | [] => Values.Get reqQuery k
        | v0 :: _ => [v0]) ∧
      (∀ p ∈ callerQuery, ∃ v0, Values.Get out p.1 = [v0] ∧ (p.1, v0) ∈ callerQuery) ∧
      (∀ p ∈ callerQuery, (∀ q ∈ callerQuery, q.1 = p.1 → q = p) →
        Values.Get out p.1 = [p.2] ∧ p.2 ∈ Values.Get out p.1) ∧
      (∀ k, (∀ p ∈ callerQuery, p.1 ≠ k) → Values.Get out k = Values.Get reqQuery k) := by
  obtain ⟨out, hout, hget⟩ := propagateQuery_ParseQuery reqQuery callerQuery
  have hfirst : ∀ p ∈ callerQuery, ∃ x, ∃ xs,
      callerQuery.filter (fun q => q.1 = p.1) = x :: xs ∧ x ∈ callerQuery ∧ x.1 = p.1 := by
    intro p hp
    have hmem : p ∈ callerQuery.filter (fun q => q.1 = p.1) := by
      rw [List.mem_filter]
      exact ⟨hp, by simp⟩
    cases hl : callerQuery.filter (fun q => q.1 = p.1) with
    | nil => rw [hl] at hmem; cases hmem
    | cons x xs =>
      have hx : x ∈ callerQuery.filter (fun q => q.1 = p.1) := by
        rw [hl]; exact List.mem_cons_self _ _
      rw [List.mem_filter] at hx
      exact ⟨x, xs, rfl, hx.1, by simpa using hx.2⟩
  have hrun : shuffleHandler lib (.ok reqQuery) callerQuery Do elapsed =
      ⟨shuffleRespond lib (Do out) elapsed, some out⟩ := by
    unfold shuffleHandler
    simp only [hout]
  refine ⟨out, hout, by rw [hrun], by rw [hrun], hget, ?_, ?_, ?_⟩
  · intro p hp
    obtain ⟨x, xs, hl, hx, hk⟩ := hfirst p hp
    refine ⟨x.2, ?_, ?_⟩
    · rw [hget p.1, hl]; rfl
    · rw [← hk]; exact hx
  · intro p hp huniq
    obtain ⟨x, xs, hl, hx, hk⟩ := hfirst p hp
    have hxp : x = p := huniq x hx hk
    have : Values.Get out p.1 = [p.2] := by rw [hget p.1, hl, hxp]; rfl
    rw [this]
    exact ⟨rfl, List.mem_singleton.mpr rfl⟩
  · intro k hk
    have hnil : callerQuery.filter (fun p => p.1 = k) = [] := by
      rw [List.filter_eq_nil_iff]
      intro p hp
      simpa using hk p hp
    rw [hget k, hnil]; rfl

/-! ## Frontend: what `/shuffle` writes -/

/-- What the handler writes on each outcome of the backend call. -/
theorem shuffleRespond_cases (lib : FrontLib) (result : Except String HTTPResponse)
    (elapsed : Int) :
    (∀ err, result = .error err →
      shuffleRespond lib result elapsed =
        .json 200 ⟨⟨lib.DurationString (roundDuration elapsed), 0, "", ""⟩,
          "unable to call backend: " ++ err, none⟩) ∧
    (∀ resp err, result = .ok resp → resp.Body = .error err →
      shuffleRespond lib result elapsed =
        .json 200 ⟨⟨lib.DurationString (roundDuration elapsed), 0, "", ""⟩,
          "unable to read backend response body: " ++ err, none⟩) ∧
    (∀ resp body, result = .ok resp → resp.Body = .ok body →
      Contains resp.ContentType "application/json" = false →
      shuffleRespond lib result elapsed =
        .json 200 ⟨⟨lib.DurationString (roundDuration elapsed), 0, "", ""⟩,
          "received status code " ++ toString resp.StatusCode ++ " from backend: "
            ++ lib.Quote body, none⟩) ∧
    (∀ resp body err, result = .ok resp → resp.Body = .ok body →
      Contains resp.ContentType "application/json" = true →
      lib.Unmarshal body = .error err →
      shuffleRespond lib result elapsed =
        .json 200 ⟨⟨lib.DurationString (roundDuration elapsed), 0, "", ""⟩,
          "json unmarshalling response body: " ++ err, none⟩) ∧
    (∀ resp body w, result = .ok resp → resp.Body = .ok body →
      Contains resp.ContentType "application/json" = true →
      lib.Unmarshal body = .ok w → resp.StatusCode ≠ 200 →
      shuffleRespond lib result elapsed =
        .json 200 ⟨⟨lib.DurationString (roundDuration elapsed), resp.StatusCode,
            w.Hostname, w.Version⟩,
          "received status code " ++ toString resp.StatusCode ++ " from backend: "
            ++ lib.Quote w.Error, none⟩) ∧
    (∀ resp body w, result = .ok resp → resp.Body = .ok body →
      Contains resp.ContentType "application/json" = true →
      lib.Unmarshal body = .ok w → resp.StatusCode = 200 →
      shuffleRespond lib result elapsed =
        .json 200 ⟨⟨lib.DurationString (roundDuration elapsed), 200,
            w.Hostname, w.Version⟩, "", some w.Response⟩) := by
  refine ⟨?_, ?_, ?_, ?_, ?_, ?_⟩
  · intro err h; subst h; rfl
  · intro resp err h hb; subst h
    unfold shuffleRespond; simp only [hb]; rfl
  · intro resp body h hb hc; subst h
    unfold shuffleRespond; simp only [hb, hc]; rfl
  · intro resp body err h hb hc hu; subst h
    unfold shuffleRespond; simp only [hb, hc, hu]; rfl
  · intro resp body w h hb hc hu hs; subst h
    unfold shuffleRespond; simp only [hb, hc, hu]
    simp [hs]
  · intro resp body w h hb hc hu hs; subst h
    unfold shuffleRespond; simp only [hb, hc, hu]
    simp [hs]

theorem error_field_of_failure (a b : String) (ha : a ≠ "") :
    (a ++ b = "" ↔ (none : Option BackendResp) ≠ none) :=
  ⟨fun h => absurd h (String.append_ne_empty_of_left a b ha), fun h => absurd rfl h⟩

/-- Every body written after the backend call has status 200, carries the
rounded duration, and its error field is empty exactly when it carries a
bird. -/
theorem shuffleRespond_error_field (lib : FrontLib) (result : Except String HTTPResponse)
    (elapsed : Int) :
    ∃ body, shuffleRespond lib result elapsed = .json 200 body ∧
      body.Metadata.BackendDuration = lib.DurationString (roundDuration elapsed) ∧
      (body.Error = "" ↔ body.Response ≠ none) := by
  cases result with
  | error err =>
    exact ⟨_, (shuffleRespond_cases lib (.error err) elapsed).1 err rfl, rfl,
      error_field_of_failure _ _ (by decide)⟩
  | ok resp =>
    obtain ⟨_, h2, h3, h4, h5, h6⟩ := shuffleRespond_cases lib (.ok resp) elapsed
    cases hb : resp.Body with
    | error err =>
      exact ⟨_, h2 resp err rfl hb, rfl, error_field_of_failure _ _ (by decide)⟩
    | ok body =>
      cases hc : Contains resp.ContentType "application/json" with
      | false =>
        exact ⟨_, h3 resp body rfl hb hc, rfl,
          error_field_of_failure _ _ (String.append_ne_empty_of_left _ _
            (String.append_ne_empty_of_left _ _ (by decide)))⟩
      | true =>
        cases hu : lib.Unmarshal body with
        | error err =>
          exact ⟨_, h4 resp body err rfl hb hc hu, rfl, error_field_of_failure _ _ (by decide)⟩
        | ok w =>
          by_cases hs : resp.StatusCode = 200
          · exact ⟨_, h6 resp body w rfl hb hc hu hs, rfl, ⟨fun _ => by simp, fun _ => rfl⟩⟩
          · exact ⟨_, h5 resp body w rfl hb hc hu hs, rfl,
              error_field_of_failure _ _ (String.append_ne_empty_of_left _ _
                (String.append_ne_empty_of_left _ _ (by decide)))⟩

/-- Counterexample to C2: when the backend request cannot be constructed the
handler writes status 503, not 200. -/
theorem request_construction_error_503 :
    (shuffleHandler sampleFrontLib (.error "parse \"http://[::1/bird\": missing ']' in host") []
      (fun _ => .error "unreachable") 0).outcome.status = 503 ∧
    (shuffleHandler sampleFrontLib (.error "parse \"http://[::1/bird\": missing ']' in host") []
      (fun _ => .error "unreachable") 0).outcome
      = .json 503 ⟨⟨"", 0, "", ""⟩,
          "Unable to construct request: parse \"http://[::1/bird\": missing ']' in host", none⟩ := by
  exact ⟨by rfl, by rfl⟩

/-- C2 (amended): once the backend request has been constructed, the
`/shuffle` handler calls the backend and writes status 200 for every caller
query and every outcome of that call, and failure is signalled only in the
body: the error field is non-empty and the response absent on a transport
failure ("unable to call backend: ..."), a body read failure ("unable to read
backend response body: ..."), a non-JSON content type and a non-200 JSON
answer ("received status code ... from backend: ...") and a JSON decode
failure ("json unmarshalling response body: ..."); on a 200 JSON answer the
error field is empty and the response carries the bird. When the request
cannot be constructed the handler writes 503 with the error
"Unable to construct request: ..." and does not call the backend. -/
theorem shuffle_status (lib : FrontLib) (newRequest : Except String Values)
    (callerQuery : List (String × String)) (Do : Values → Except String HTTPResponse)
    (elapsed : Int) :
    (∀ reqQuery, newRequest = .ok reqQuery →
      ∃ out body,
        (shuffleHandler lib newRequest callerQuery Do elapsed).outbound = some out ∧
        (shuffleHandler lib newRequest callerQuery Do elapsed).outcome = .json 200 body ∧
        (shuffleHandler lib newRequest callerQuery Do elapsed).outcome.status = 200 ∧
        body.Metadata.BackendDuration = lib.DurationString (roundDuration elapsed) ∧
        (body.Error = "" ↔ body.Response ≠ none) ∧
        (∀ err, Do out = .error err →
          body = ⟨⟨lib.DurationString (roundDuration elapsed), 0, "", ""⟩,
            "unable to call backend: " ++ err, none⟩) ∧
        (∀ resp err, Do out = .ok resp → resp.Body = .error err →
          body = ⟨⟨lib.DurationString (roundDuration elapsed), 0, "", ""⟩,
            "unable to read backend response body: " ++ err, none⟩) ∧
        (∀ resp b, Do out = .ok resp → resp.Body = .ok b →
          Contains resp.ContentType "application/json" = false →
          body = ⟨⟨lib.DurationString (roundDuration elapsed), 0, "", ""⟩,
            "received status code " ++ toString resp.StatusCode ++ " from backend: "
              ++ lib.Quote b, none⟩) ∧
        (∀ resp b err, Do out = .ok resp → resp.Body = .ok b →
          Contains resp.ContentType "application/json" = true →
          lib.Unmarshal b = .error err →
          body = ⟨⟨lib.DurationString (roundDuration elapsed), 0, "", ""⟩,
            "json unmarshalling response body: " ++ err, none⟩) ∧
        (∀ resp b w, Do out = .ok resp → resp.Body = .ok b →
          Contains resp.ContentType "application/json" = true →
          lib.Unmarshal b = .ok w → resp.StatusCode ≠ 200 →
          body = ⟨⟨lib.DurationString (roundDuration elapsed), resp.StatusCode,
              w.Hostname, w.Version⟩,
            "received status code " ++ toString resp.StatusCode ++ " from backend: "
              ++ lib.Quote w.Error, none⟩) ∧
        (∀ resp b w, Do out = .ok resp → resp.Body = .ok b →
          Contains resp.ContentType "application/json" = true →
          lib.Unmarshal b = .ok w → resp.StatusCode = 200 →
          body = ⟨⟨lib.DurationString (roundDuration elapsed), 200,
              w.Hostname, w.Version⟩, "", some w.Response⟩)) ∧
    (∀ err, newRequest = .error err →
      (shuffleHandler lib newRequest callerQuery Do elapsed).outcome =
        .json 503 ⟨⟨"", 0, "", ""⟩, "Unable to construct request: " ++ err, none⟩ ∧
      (shuffleHandler lib newRequest callerQuery Do elapsed).outbound = none) := by
  constructor
  · intro reqQuery hreq
    subst hreq
    obtain ⟨out, hout, _⟩ := propagateQuery_ParseQuery reqQuery callerQuery
    have hrun : shuffleHandler lib (.ok reqQuery) callerQuery Do elapsed =
        ⟨shuffleRespond lib (Do out) elapsed, some out⟩ := by
      unfold shuffleHandler
      simp only [hout]
    obtain ⟨body, hbody, hdur, herr⟩ := shuffleRespond_error_field lib (Do out) elapsed
    obtain ⟨h1, h2, h3, h4, h5, h6⟩ := shuffleRespond_cases lib (Do out) elapsed
    have inj : ∀ b', shuffleRespond lib (Do out) elapsed = .json 200 b' → body = b' := by
      intro b' hb'
      rw [hbody] at hb'
      exact (ShuffleOutcome.json.inj hb').2
    refine ⟨out, body, by rw [hrun], by rw [hrun]; exact hbody, by rw [hrun]; simp only [hbody]; rfl,
      hdur, herr, ?_, ?_, ?_, ?_, ?_, ?_⟩
    · intro err h; exact inj _ (h1 err h)
    · intro resp err h hb; exact inj _ (h2 resp err h hb)
    · intro resp b h hb hc; exact inj _ (h3 resp b h hb hc)
    · intro resp b err h hb hc hu; exact inj _ (h4 resp b err h hb hc hu)
    · intro resp b w h hb hc hu hs; exact inj _ (h5 resp b w h hb hc hu hs)
    · intro resp b w h hb hc hu hs; exact inj _ (h6 resp b w h hb hc hu hs)
  · intro err herr
    subst herr
    exact ⟨rfl, rfl⟩

/-- Witness for C2: with the request constructed and the backend unreachable
the handler writes 200 with the transport error in the body. -/
theorem shuffle_status_witness :
    ∃ out body,
      (shuffleHandler sampleFrontLib (.ok []) [("delay", "1")]
        (fun _ => .error "dial tcp: connection refused") 1500000).outbound = some out ∧
      (shuffleHandler sampleFrontLib (.ok []) [("delay", "1")]
        (fun _ => .error "dial tcp: connection refused") 1500000).outcome = .json 200 body ∧
      body = ⟨⟨"2000000ns", 0, "", ""⟩,
        "unable to call backend: dial tcp: connection refused", none⟩ := by
  obtain ⟨out, body, ho, hb, _, _, _, h1, _⟩ :=
    (shuffle_status sampleFrontLib (.ok []) [("delay", "1")]
      (fun _ => .error "dial tcp: connection refused") 1500000).1 [] rfl
  exact ⟨out, body, ho, hb, (h1 "dial tcp: connection refused" rfl).trans (by decide)⟩

end Birdwatcher
